import Mathlib

/-!
Verification development for the ARBA-DELIVERY order lifecycle core:
the order status state machine, courier assignment / workload
bookkeeping, and pricing computation, shallowly embedded from
`backend/orders/{models,serializers,services,views}.py`.

Conventions of the embedding:
* Monetary amounts (`base_fee`, `per_km_rate`, `price`) are natural
  numbers in cents (the source stores `Decimal` with 2 decimal places).
* `distance_km` is a natural number in hundredths of a kilometre (the
  source field is a `Decimal` with 2 decimal places).
* Timestamps are natural numbers; `timezone.now()` becomes an explicit
  `now` parameter.
* Django rows become entries of Lean lists kept in insertion order
  (Django's `get_or_create` appends; `order_by` is a stable sort, so
  `order_by(k).first()` is the first element attaining the minimum key).
* Fallible endpoints return `Except Err State`; a Django
  `ValidationError` / error `Response` becomes an `Err` value and, as in
  the source, an error leaves the store untouched.
-/

namespace Arba

/-- User roles, from `accounts` (`CUSTOMER`/`COURIER`/`ADMIN`). -/
inductive Role where
  | CUSTOMER
  | COURIER
  | ADMIN
deriving DecidableEq, Repr

/-- Order statuses, from `Order.STATUS_CHOICES` in `orders/models.py`. -/
inductive OrderStatus where
  | CREATED
  | ASSIGNED
  | PICKED_UP
  | IN_TRANSIT
  | DELIVERED
  | CANCELLED
deriving DecidableEq, Repr

/-- Errors surfaced by the endpoints (validation errors and error
responses in `orders/serializers.py` / `orders/views.py`). -/
inductive Err where
  | invalidTransition (current requested : OrderStatus)
  | invalidOperation (msg : String)
  | validation (msg : String)
  | alreadyAssigned
  | notFound
deriving DecidableEq, Repr

/-- The `Order` model (`orders/models.py`). -/
structure Order where
  id : Nat
  customer : Nat
  assigned_courier : Option Nat
  pickup_address : String
  delivery_address : String
  distance_km : Nat
  price : Nat
  status : OrderStatus
  created_at : Nat
  assigned_at : Option Nat
  picked_up_at : Option Nat
  in_transit_at : Option Nat
  delivered_at : Option Nat
deriving DecidableEq, Repr

/-- The `CourierStatus` model (`orders/models.py`). -/
structure CourierStatus where
  courier : Nat
  is_available : Bool
  current_orders_count : Nat
deriving DecidableEq, Repr

/-- The `PricingConfig` model (`orders/models.py`). -/
structure PricingConfig where
  id : Nat
  base_fee : Nat
  per_km_rate : Nat
  is_active : Bool
deriving DecidableEq, Repr

/-- The relational store the order core operates over: the `Order`,
`CourierStatus` and `PricingConfig` tables plus the (fixed) role of
each user id.  `nextOrderId` / `nextConfigId` model the autoincrement
primary keys. -/
structure State where
  role : Nat → Role
  orders : List Order
  courierRows : List CourierStatus
  configs : List PricingConfig
  nextOrderId : Nat
  nextConfigId : Nat

/-- An empty store (no orders, no courier rows, no pricing configs). -/
def initState (role : Nat → Role) : State :=
  { role := role, orders := [], courierRows := [], configs := [],
    nextOrderId := 0, nextConfigId := 0 }

/-- The transition table of `OrderStatusUpdateSerializer.validate_status`
(`orders/serializers.py` lines 154-161). -/
def validTransitions : OrderStatus → List OrderStatus
  | .CREATED => [.ASSIGNED, .CANCELLED]
  | .ASSIGNED => [.PICKED_UP, .CANCELLED]
  | .PICKED_UP => [.IN_TRANSIT, .CANCELLED]
  | .IN_TRANSIT => [.DELIVERED, .CANCELLED]
  | .DELIVERED => []
  | .CANCELLED => []

/-- `Order.objects.get(pk=oid)`: first row with the given primary key. -/
def findOrder (s : State) (oid : Nat) : Option Order :=
  s.orders.find? (fun o => o.id == oid)

/-- `order.save()` on an existing row: replace the row with this id. -/
def replaceOrder (orders : List Order) (oid : Nat) (o' : Order) : List Order :=
  orders.map (fun o => if o.id == oid then o' else o)

/-- The `CourierStatus` row of a courier, if it exists. -/
def findRow (rows : List CourierStatus) (c : Nat) : Option CourierStatus :=
  rows.find? (fun r => r.courier == c)

/-- `CourierStatus.objects.get_or_create(courier=c, defaults={'is_available': True,
'current_orders_count': 0})`: create the row lazily with the defaults. -/
def getOrCreateRow (rows : List CourierStatus) (c : Nat) : List CourierStatus :=
  if rows.any (fun r => r.courier == c) then rows
  else rows ++ [⟨c, true, 0⟩]

/-- A courier's `current_orders_count` as `get_or_create` would read it
(the lazily created row defaults to workload 0). -/
def getWorkload (s : State) (c : Nat) : Nat :=
  ((findRow s.courierRows c).map (·.current_orders_count)).getD 0

/-- A courier's `is_available` as `get_or_create` would read it (the
lazily created row defaults to available). -/
def rowAvailable (rows : List CourierStatus) (c : Nat) : Bool :=
  ((findRow rows c).map (·.is_available)).getD true

/-- `OrderViewSet._update_courier_workload` (`orders/views.py` lines
476-484): `get_or_create` the row, then
`current_orders_count = max(0, current_orders_count + change)`. -/
def updateCourierWorkload (s : State) (c : Nat) (change : Int) : State :=
  let rows := getOrCreateRow s.courierRows c
  { s with courierRows :=
      rows.map (fun r =>
        if r.courier == c then
          { r with current_orders_count := (max 0 ((r.current_orders_count : Int) + change)).toNat }
        else r) }

/-- `OrderStatusUpdateSerializer.update` (`orders/serializers.py` lines
170-188): set the status and stamp the matching timestamp field. -/
def serializerUpdate (o : Order) (new_status : OrderStatus) (now : Nat) : Order :=
  let o1 := { o with status := new_status }
  match new_status with
  | .ASSIGNED => { o1 with assigned_at := some now }
  | .PICKED_UP => { o1 with picked_up_at := some now }
  | .IN_TRANSIT => { o1 with in_transit_at := some now }
  | .DELIVERED => { o1 with delivered_at := some now }
  | _ => o1

/-- `OrderViewSet.update_status` (`orders/views.py` lines 80-101) after
authorization: validate the transition
(`OrderStatusUpdateSerializer.validate_status`), apply
`serializerUpdate`, and on DELIVERED/CANCELLED with an assigned courier
decrement that courier's workload. -/
def updateStatus (s : State) (oid : Nat) (v : OrderStatus) (now : Nat) :
    Except Err State :=
  match findOrder s oid with
  | none => .error .notFound
  | some o =>
    if v ∈ validTransitions o.status then
      let o' := serializerUpdate o v now
      let s' := { s with orders := replaceOrder s.orders oid o' }
      if o'.status = .DELIVERED ∨ o'.status = .CANCELLED then
        match o'.assigned_courier with
        | some c => .ok (updateCourierWorkload s' c (-1))
        | none => .ok s'
      else .ok s'
    else .error (.invalidTransition o.status v)

/-- `CourierAssignmentSerializer.validate_courier_id`
(`orders/serializers.py` lines 195-211): the target must be a
COURIER-role user; `get_or_create` their status row; reject if
unavailable. -/
def validateCourierId (s : State) (cid : Nat) : Except Err State :=
  if s.role cid = Role.COURIER then
    let s' := { s with courierRows := getOrCreateRow s.courierRows cid }
    if rowAvailable s'.courierRows cid then .ok s'
    else .error (.validation "Courier is not available")
  else .error (.validation "Courier not found")

/-- `OrderViewSet.assign_courier` (`orders/views.py` lines 103-136):
manual assignment; reassignment decrements the previous courier first;
the new courier's workload is incremented only when it differs from the
old one. -/
def assignCourier (s : State) (oid cid : Nat) (now : Nat) :
    Except Err State :=
  match findOrder s oid with
  | none => .error .notFound
  | some o =>
    if o.status = .CREATED ∨ o.status = .ASSIGNED then
      match validateCourierId s cid with
      | .error e => .error e
      | .ok s1 =>
        let oldCourier := o.assigned_courier
        let s2 := match oldCourier with
          | some old => if old ≠ cid then updateCourierWorkload s1 old (-1) else s1
          | none => s1
        let o' := { o with assigned_courier := some cid, status := .ASSIGNED,
                           assigned_at := some now }
        let s3 := { s2 with orders := replaceOrder s2.orders oid o' }
        if oldCourier ≠ some cid then .ok (updateCourierWorkload s3 cid 1)
        else .ok s3
    else .error (.invalidOperation
      "Can only assign couriers to orders with CREATED or ASSIGNED status")

/-- `OrderViewSet.reassign_courier` (`orders/views.py` lines 138-185):
transfer an ASSIGNED/PICKED_UP order to a different courier; a
PICKED_UP order is rolled back to ASSIGNED with `picked_up_at`
cleared. -/
def reassignCourier (s : State) (oid cid : Nat) (now : Nat) :
    Except Err State :=
  match findOrder s oid with
  | none => .error .notFound
  | some o =>
    if o.status = .ASSIGNED ∨ o.status = .PICKED_UP then
      match o.assigned_courier with
      | none => .error (.invalidOperation
          "Order is not currently assigned to any courier")
      | some old =>
        match validateCourierId s cid with
        | .error e => .error e
        | .ok s1 =>
          if old = cid then .error .alreadyAssigned
          else
            let s2 := updateCourierWorkload s1 old (-1)
            let s3 := updateCourierWorkload s2 cid 1
            let o1 := { o with assigned_courier := some cid, assigned_at := some now }
            let o' := if o.status = .PICKED_UP then
                { o1 with status := .ASSIGNED, picked_up_at := none }
              else o1
            .ok { s3 with orders := replaceOrder s3.orders oid o' }
    else .error (.invalidOperation
      "Can only reassign orders with ASSIGNED or PICKED_UP status")

/-- `OrderViewSet.accept_order` (`orders/views.py` lines 187-226):
courier self-service acceptance of a CREATED order. -/
def acceptOrder (s : State) (oid cid : Nat) (now : Nat) :
    Except Err State :=
  if s.role cid = Role.COURIER then
    match findOrder s oid with
    | none => .error .notFound
    | some o =>
      if o.status = .CREATED then
        let s1 := { s with courierRows := getOrCreateRow s.courierRows cid }
        if rowAvailable s1.courierRows cid then
          let o' := { o with assigned_courier := some cid, status := .ASSIGNED,
                             assigned_at := some now }
          let s2 := { s1 with orders := replaceOrder s1.orders oid o' }
          .ok (updateCourierWorkload s2 cid 1)
        else .error (.invalidOperation "You are not available for new orders")
      else .error (.invalidOperation "Order is not available for acceptance")
  else .error (.invalidOperation "Only couriers can accept orders")

/-- `CourierStatusViewSet.update_availability` (`orders/views.py` lines
572-598), restricted to the availability flag: `get_or_create` the
courier's row, then set `is_available`. -/
def updateAvailability (s : State) (cid : Nat) (avail : Bool) :
    Except Err State :=
  if s.role cid = Role.COURIER then
    let rows := getOrCreateRow s.courierRows cid
    .ok { s with courierRows :=
            rows.map (fun r => if r.courier == cid then { r with is_available := avail } else r) }
  else .error (.invalidOperation "Only couriers can update their availability")

/-- Round a nonnegative amount of ten-thousandths of a currency unit to
cents the way Python's `Decimal.quantize(Decimal('0.01'))` does under
the default context: ties go to the even cent (ROUND_HALF_EVEN). -/
def quantizeCents (n : Nat) : Nat :=
  if n % 100 < 50 then n / 100
  else if 50 < n % 100 then n / 100 + 1
  else if n / 100 % 2 = 0 then n / 100 else n / 100 + 1

/-- `base_fee + (distance_km * per_km_rate)` followed by
`.quantize(Decimal('0.01'))`, shared by
`OrderCreateSerializer.create` (`orders/serializers.py` lines 122-126)
and `ConfigurationService.calculate_price` (`orders/services.py` lines
107-125).  `base_fee`/`per_km_rate` are in cents and `distance` in
hundredths of a km, so the exact sum lives in ten-thousandths. -/
def calculatePrice (base_fee per_km_rate distance : Nat) : Nat :=
  quantizeCents (base_fee * 100 + distance * per_km_rate)

/-- Modelled from the spec: the spec's own wording of the rounding in
§3 ("rounded to 2 decimal places using standard half-up rounding"),
for comparison with the source's `quantizeCents`. -/
def quantizeCentsHalfUpSpec (n : Nat) : Nat :=
  (n + 50) / 100

/-- Modelled from the spec: price formula with the spec's half-up
rounding instead of the source's banker's rounding. -/
def calculatePriceHalfUpSpec (base_fee per_km_rate distance : Nat) : Nat :=
  quantizeCentsHalfUpSpec (base_fee * 100 + distance * per_km_rate)

/-- Python's `str.strip()` as used by the address validators:
drop whitespace from both ends. -/
def pyStrip (s : String) : String :=
  ⟨((s.data.dropWhile Char.isWhitespace).reverse.dropWhile Char.isWhitespace).reverse⟩

/-- Python's `str.lower()` as used by the address cross-field check. -/
def pyLower (s : String) : String :=
  ⟨s.data.map Char.toLower⟩

/-- `PricingConfig.objects.filter(is_active=True).first()`. -/
def activeConfig (s : State) : Option PricingConfig :=
  s.configs.find? (·.is_active)

/-- Ascending stable selection: the first element of the courier-row
list attaining the minimum `current_orders_count`, i.e. the result of
`order_by('current_orders_count').first()` on a stably ordered list. -/
def selectLeastLoaded : List CourierStatus → Option CourierStatus
  | [] => none
  | r :: rs =>
    match selectLeastLoaded rs with
    | none => some r
    | some b => if r.current_orders_count ≤ b.current_orders_count then some r else some b

/-- The eligible-courier queryset of `OrderViewSet._try_auto_assignment`
(`orders/views.py` lines 458-461): rows with `is_available=True` whose
user has role COURIER. -/
def availableCouriers (s : State) : List CourierStatus :=
  s.courierRows.filter (fun r => r.is_available && (s.role r.courier == Role.COURIER))

/-- `OrderViewSet._try_auto_assignment` (`orders/views.py` lines
455-474): pick the least-loaded available courier, if any; assign the
order and increment that courier's workload. -/
def tryAutoAssignment (s : State) (o : Order) (now : Nat) : Order × State :=
  match selectLeastLoaded (availableCouriers s) with
  | none => (o, s)
  | some r =>
    let o' := { o with assigned_courier := some r.courier, status := .ASSIGNED,
                       assigned_at := some now }
    (o', updateCourierWorkload s r.courier 1)

/-- `OrderCreateSerializer` field and cross-field validation plus
`OrderCreateSerializer.create` (`orders/serializers.py` lines 82-138)
followed by the view's `_try_auto_assignment` call
(`orders/views.py` lines 67-78). -/
def createOrder (s : State) (customer : Nat) (pickup delivery : String)
    (distance : Nat) (now : Nat) : Except Err State :=
  if distance = 0 then .error (.validation "Distance must be greater than 0")
  else if pyStrip pickup = "" then .error (.validation "Pickup address is required")
  else if pyStrip delivery = "" then .error (.validation "Delivery address is required")
  else if pyLower (pyStrip pickup) = pyLower (pyStrip delivery) then
    .error (.validation "Pickup and delivery addresses cannot be the same")
  else
    match activeConfig s with
    | none => .error (.validation "No active pricing configuration found")
    | some cfg =>
      let price := calculatePrice cfg.base_fee cfg.per_km_rate distance
      let o : Order :=
        { id := s.nextOrderId, customer := customer, assigned_courier := none,
          pickup_address := pyStrip pickup, delivery_address := pyStrip delivery,
          distance_km := distance, price := price, status := .CREATED,
          created_at := now, assigned_at := none, picked_up_at := none,
          in_transit_at := none, delivered_at := none }
      let (o', s1) := tryAutoAssignment s o now
      .ok { s1 with orders := s1.orders ++ [o'], nextOrderId := s.nextOrderId + 1 }

/-- `PricingConfigViewSet.perform_create` (`orders/views.py` lines
493-499): deactivate every config, then create a new active one. -/
def pricingPerformCreate (s : State) (base_fee per_km_rate : Nat) : State :=
  { s with
    configs := (s.configs.map (fun c => { c with is_active := false }))
      ++ [⟨s.nextConfigId, base_fee, per_km_rate, true⟩],
    nextConfigId := s.nextConfigId + 1 }

/-- `PricingConfigViewSet.activate` (`orders/views.py` lines 501-514):
deactivate every config, then activate the addressed one. -/
def pricingActivate (s : State) (cid : Nat) : Except Err State :=
  if s.configs.any (fun c => c.id == cid) then
    let deactivated := s.configs.map (fun c => { c with is_active := false })
    .ok { s with configs :=
            deactivated.map (fun c => if c.id == cid then { c with is_active := true } else c) }
  else .error .notFound

/-- The operations of the order core, as invoked through the HTTP layer. -/
inductive Op where
  | createOp (customer : Nat) (pickup delivery : String) (distance now : Nat)
  | statusOp (oid : Nat) (v : OrderStatus) (now : Nat)
  | assignOp (oid cid now : Nat)
  | reassignOp (oid cid now : Nat)
  | acceptOp (oid cid now : Nat)
  | availOp (cid : Nat) (avail : Bool)
  | pricingCreateOp (base_fee per_km_rate : Nat)
  | pricingActivateOp (cid : Nat)
deriving DecidableEq, Repr

/-- A failed request leaves the store untouched. -/
def orKeep (s : State) : Except Err State → State
  | .ok s' => s'
  | .error _ => s

/-- One request against the store. -/
def applyOp (s : State) : Op → State
  | .createOp customer pickup delivery distance now =>
      orKeep s (createOrder s customer pickup delivery distance now)
  | .statusOp oid v now => orKeep s (updateStatus s oid v now)
  | .assignOp oid cid now => orKeep s (assignCourier s oid cid now)
  | .reassignOp oid cid now => orKeep s (reassignCourier s oid cid now)
  | .acceptOp oid cid now => orKeep s (acceptOrder s oid cid now)
  | .availOp cid avail => orKeep s (updateAvailability s cid avail)
  | .pricingCreateOp b r => pricingPerformCreate s b r
  | .pricingActivateOp cid => orKeep s (pricingActivate s cid)

/-- A sequence of requests, applied oldest first. -/
def applyOps (s : State) : List Op → State
  | [] => s
  | op :: rest => applyOps (applyOp s op) rest

/-- Statuses counted as a live workload:
`status__in=['ASSIGNED', 'PICKED_UP', 'IN_TRANSIT']`. -/
def statusActive : OrderStatus → Bool
  | .ASSIGNED => true
  | .PICKED_UP => true
  | .IN_TRANSIT => true
  | _ => false

/-- The number of orders currently assigned to courier `c` with an
active status (the quantity `current_orders_count` denormalizes). -/
def countActive (s : State) (c : Nat) : Nat :=
  s.orders.countP (fun o => o.assigned_courier == some c && statusActive o.status)



/-- Pricing-configuration operations (the `PricingConfigViewSet`
endpoints): they read and write only the `PricingConfig` table. -/
def Op.isPricing : Op → Bool
  | .pricingCreateOp _ _ => true
  | .pricingActivateOp _ => true
  | _ => false

/-- A bare PATCH of `status` to ASSIGNED through `update_status`,
bypassing the assignment endpoints. -/
def Op.bareStatusToAssigned : Op → Bool
  | .statusOp _ .ASSIGNED _ => true
  | _ => false

/-- Statuses that, per the spec invariant, require an assigned courier
(ASSIGNED, PICKED_UP, IN_TRANSIT, DELIVERED). -/
def needsCourier : OrderStatus → Bool
  | .ASSIGNED => true
  | .PICKED_UP => true
  | .IN_TRANSIT => true
  | .DELIVERED => true
  | _ => false

/-- Structural well-formedness of a store: primary keys are unique and
below the autoincrement counter, a CREATED order has no courier, and
every `current_orders_count` equals the live count of active orders of
that courier. -/
def WF (s : State) : Prop :=
  ((s.orders.map (·.id)).Nodup) ∧
  (∀ o ∈ s.orders, o.id < s.nextOrderId) ∧
  (∀ o ∈ s.orders, o.status = .CREATED → o.assigned_courier = none) ∧
  (∀ c, getWorkload s c = countActive s c)

/-- The spec's courier-non-null invariant: every order whose status
requires a courier has a non-null `assigned_courier`. -/
def CourierNonNull (s : State) : Prop :=
  ∀ o ∈ s.orders, needsCourier o.status = true → o.assigned_courier ≠ none

/-- Example role table for concrete instances: user 0 is a customer,
users 1 and 2 are couriers, everyone else is an admin. -/
def exRole : Nat → Role :=
  fun n => if n = 0 then .CUSTOMER else if n ≤ 2 then .COURIER else .ADMIN

/-- Example order: order 0 of customer 0, assigned to courier 1. -/
def exOrder : Order :=
  { id := 0, customer := 0, assigned_courier := some 1,
    pickup_address := "A st", delivery_address := "B st",
    distance_km := 500, price := 15000, status := .ASSIGNED,
    created_at := 10, assigned_at := some 10, picked_up_at := none,
    in_transit_at := none, delivered_at := none }

/-- Example store holding `exOrder`, courier rows for couriers 1 and 2,
and one active pricing config (base 50.00, rate 20.00). -/
def exState : State :=
  { role := exRole, orders := [exOrder],
    courierRows := [⟨1, true, 1⟩, ⟨2, true, 0⟩],
    configs := [⟨0, 5000, 2000, true⟩],
    nextOrderId := 1, nextConfigId := 1 }

/-- Example store with no orders, no courier rows and no active config. -/
def exEmptyState : State :=
  { role := exRole, orders := [], courierRows := [],
    configs := [⟨0, 5000, 2000, false⟩],
    nextOrderId := 0, nextConfigId := 1 }

/-! ### Lemmas about courier rows and workloads -/

theorem findRow_map_ite (rows : List CourierStatus) (c c' : Nat)
    (g : CourierStatus → CourierStatus) (hg : ∀ r, (g r).courier = r.courier) :
    findRow (rows.map (fun r => if r.courier == c then g r else r)) c' =
      (findRow rows c').map (fun r => if r.courier == c then g r else r) := by
  induction rows with
  | nil => rfl
  | cons r rs ih =>
    cases hb : r.courier == c with
    | true =>
      cases hb' : r.courier == c' with
      | true =>
        have hcc' : (c == c') = true := by
          rw [← beq_iff_eq.mp hb]; exact hb'
        simp [findRow, List.find?, hb, hb', hg r, beq_iff_eq.mp hb, hcc']
      | false => simpa [findRow, List.find?, hb, hb', hg r] using ih
    | false =>
      cases hb' : r.courier == c' with
      | true => simp [findRow, List.find?, hb, hb', beq_eq_false_iff_ne.mp hb]
      | false => simpa [findRow, List.find?, hb, hb'] using ih

theorem findRow_append_single (rows : List CourierStatus) (x : CourierStatus) (c : Nat) :
    findRow (rows ++ [x]) c = (findRow rows c).or (findRow [x] c) := by
  induction rows with
  | nil => simp [findRow]
  | cons r rs ih =>
    cases hb : r.courier == c with
    | true => simp [findRow, List.find?, hb]
    | false =>
      rw [findRow, List.cons_append] at *
      simp only [List.find?, hb, ih]
      have : findRow (r :: rs) c = findRow rs c := by simp [findRow, List.find?, hb]
      rw [this]

theorem findRow_isSome_iff_any (rows : List CourierStatus) (c : Nat) :
    (findRow rows c).isSome = rows.any (fun r => r.courier == c) := by
  induction rows with
  | nil => rfl
  | cons r rs ih =>
    cases hb : r.courier == c with
    | true => simp [findRow, List.find?, hb]
    | false => simpa [findRow, List.find?, hb] using ih

theorem findRow_getOrCreateRow (rows : List CourierStatus) (c c' : Nat) :
    findRow (getOrCreateRow rows c) c' =
      (findRow rows c').or (if c = c' ∧ (findRow rows c).isSome = false
        then some ⟨c, true, 0⟩ else none) := by
  cases ha : rows.any (fun r => r.courier == c) with
  | true =>
    have hrows : getOrCreateRow rows c = rows := by unfold getOrCreateRow; rw [ha]; simp
    have hs : (findRow rows c).isSome = true := by rw [findRow_isSome_iff_any]; exact ha
    rw [hrows, hs]
    rcases ho : findRow rows c' with _ | r <;> simp [ho]
  | false =>
    have hrows : getOrCreateRow rows c = rows ++ [⟨c, true, 0⟩] := by
      unfold getOrCreateRow; rw [ha]; simp
    have hs : (findRow rows c).isSome = false := by rw [findRow_isSome_iff_any]; exact ha
    rw [hrows, findRow_append_single, hs]
    by_cases hc : c = c'
    · subst hc
      have hx : findRow [(⟨c, true, 0⟩ : CourierStatus)] c = some ⟨c, true, 0⟩ := by
        simp [findRow, List.find?]
      rw [hx]
      rcases ho : findRow rows c with _ | r
      · simp
      · rw [ho] at hs; simp at hs
    · have hx : findRow [(⟨c, true, 0⟩ : CourierStatus)] c' = none := by
        simp [findRow, List.find?, beq_eq_false_iff_ne.mpr hc]
      rw [hx]
      simp [hc]

theorem getWorkload_ignores_orders (s : State) (orders' : List Order) (c : Nat) :
    getWorkload { s with orders := orders' } c = getWorkload s c := rfl

theorem getWorkload_getOrCreateRow (s : State) (c c' : Nat) :
    getWorkload { s with courierRows := getOrCreateRow s.courierRows c } c' =
      getWorkload s c' := by
  unfold getWorkload
  simp only []
  rw [findRow_getOrCreateRow]
  by_cases hc : c = c'
  · subst hc
    rcases ho : findRow s.courierRows c with _ | r <;> simp [ho]
  · rcases ho : findRow s.courierRows c' with _ | r <;> simp [ho, hc]

theorem rowAvailable_getOrCreateRow (rows : List CourierStatus) (c c' : Nat) :
    rowAvailable (getOrCreateRow rows c) c' = rowAvailable rows c' := by
  unfold rowAvailable
  rw [findRow_getOrCreateRow]
  by_cases hc : c = c'
  · subst hc
    rcases ho : findRow rows c with _ | r <;> simp [ho]
  · rcases ho : findRow rows c' with _ | r <;> simp [ho, hc]

theorem max_zero_toNat (x : Int) : (max 0 x).toNat = x.toNat := by omega

theorem updateCourierWorkload_rows (s : State) (c : Nat) (change : Int) :
    (updateCourierWorkload s c change).courierRows =
      (getOrCreateRow s.courierRows c).map (fun r =>
        if r.courier == c then
          { r with current_orders_count := (max 0 ((r.current_orders_count : Int) + change)).toNat }
        else r) := rfl

theorem updateCourierWorkload_orders (s : State) (c : Nat) (change : Int) :
    (updateCourierWorkload s c change).orders = s.orders := rfl

theorem getWorkload_update_self (s : State) (c : Nat) (change : Int) :
    getWorkload (updateCourierWorkload s c change) c =
      ((getWorkload s c : Int) + change).toNat := by
  unfold getWorkload
  rw [updateCourierWorkload_rows]
  rw [findRow_map_ite _ c c _ (fun r => by cases hb : r.courier == c <;> simp [hb])]
  rw [findRow_getOrCreateRow]
  rcases ho : findRow s.courierRows c with _ | r
  · simp [ho, max_zero_toNat]
  · have hceq : r.courier = c := by
      have := List.find?_some ho
      simpa using this
    simp [ho, hceq, max_zero_toNat]

theorem getWorkload_update_other (s : State) (c c' : Nat) (change : Int)
    (h : c' ≠ c) :
    getWorkload (updateCourierWorkload s c change) c' = getWorkload s c' := by
  have h' : c ≠ c' := fun hh => h hh.symm
  unfold getWorkload
  rw [updateCourierWorkload_rows]
  rw [findRow_map_ite _ c c' _ (fun r => by cases hb : r.courier == c <;> simp [hb])]
  rw [findRow_getOrCreateRow]
  rcases ho : findRow s.courierRows c' with _ | r
  · simp [ho, h']
  · have hceq : r.courier = c' := by
      have := List.find?_some ho
      simpa using this
    simp [ho, h, h', hceq]
/-! ### Lemmas about order lookup and replacement -/

theorem findOrder_mem {s : State} {oid : Nat} {o : Order}
    (h : findOrder s oid = some o) : o ∈ s.orders :=
  List.mem_of_find?_eq_some h

theorem findOrder_id {s : State} {oid : Nat} {o : Order}
    (h : findOrder s oid = some o) : o.id = oid := by
  have := List.find?_some h
  simpa using this

theorem ids_replaceOrder (l : List Order) (oid : Nat) (o' : Order)
    (h : o'.id = oid) :
    (replaceOrder l oid o').map (·.id) = l.map (·.id) := by
  unfold replaceOrder
  rw [List.map_map]
  apply List.map_congr_left
  intro x _
  cases hb : x.id == oid with
  | true => simp [hb, h, beq_iff_eq.mp hb]
  | false => simp [beq_eq_false_iff_ne.mp hb]

theorem mem_replaceOrder {l : List Order} {oid : Nat} {o' y : Order}
    (hy : y ∈ replaceOrder l oid o') : y = o' ∨ y ∈ l := by
  unfold replaceOrder at hy
  rcases List.mem_map.mp hy with ⟨x, hx, hxy⟩
  cases hb : x.id == oid with
  | true => rw [hb] at hxy; simp at hxy; exact Or.inl hxy.symm
  | false => rw [hb] at hxy; simp at hxy; exact Or.inr (hxy ▸ hx)

theorem find?_replace_eq (l : List Order) (oid : Nat) (o o' : Order)
    (h : l.find? (fun x => x.id == oid) = some o) (hid : o'.id = oid) :
    (replaceOrder l oid o').find? (fun x => x.id == oid) = some o' := by
  induction l with
  | nil => simp at h
  | cons x xs ih =>
    cases hb : x.id == oid with
    | true =>
      unfold replaceOrder
      simp only [List.map_cons, hb, if_true, List.find?]
      have : (o'.id == oid) = true := beq_iff_eq.mpr hid
      simp [this]
    | false =>
      rw [List.find?_cons_of_neg _ (by simp [hb])] at h
      unfold replaceOrder
      simp only [List.map_cons, hb, if_false]
      rw [List.find?_cons_of_neg _ (by simp [hb])]
      exact ih h

theorem findOrder_state_replace {s t : State} {oid : Nat} {o o' : Order}
    (h : findOrder s oid = some o) (hid : o'.id = oid)
    (ht : t.orders = replaceOrder s.orders oid o') :
    findOrder t oid = some o' := by
  unfold findOrder at h ⊢
  rw [ht]
  exact find?_replace_eq s.orders oid o o' h hid

theorem map_ite_id_of_no_match (xs : List Order) (oid : Nat) (o' : Order)
    (h : ∀ y ∈ xs, (y.id == oid) = false) :
    xs.map (fun y => if y.id == oid then o' else y) = xs := by
  induction xs with
  | nil => rfl
  | cons x rest ih =>
    rw [List.map_cons, h x (by simp), if_neg (by simp)]
    rw [ih (fun y hy => h y (List.mem_cons_of_mem x hy))]

theorem countP_replace (l : List Order) (oid : Nat) (o o' : Order) (p : Order → Bool)
    (hnd : (l.map (·.id)).Nodup) (hmem : o ∈ l) (hid : o.id = oid) :
    (replaceOrder l oid o').countP p + (if p o then 1 else 0) =
      l.countP p + (if p o' then 1 else 0) := by
  induction l with
  | nil => simp at hmem
  | cons x xs ih =>
    rw [List.map_cons, List.nodup_cons] at hnd
    cases hb : x.id == oid with
    | true =>
      have hxid : x.id = oid := beq_iff_eq.mp hb
      have hxo : o = x := by
        rcases List.mem_cons.mp hmem with h | h
        · exact h
        · exfalso
          apply hnd.1
          rw [hxid, ← hid]
          exact List.mem_map.mpr ⟨o, h, rfl⟩
      have hrest : ∀ y ∈ xs, (y.id == oid) = false := by
        intro y hy
        apply beq_eq_false_iff_ne.mpr
        intro hc
        exact hnd.1 (hxid ▸ hc ▸ List.mem_map.mpr ⟨y, hy, rfl⟩)
      unfold replaceOrder
      rw [List.map_cons, hb, if_pos rfl, map_ite_id_of_no_match xs oid o' hrest]
      rw [List.countP_cons, List.countP_cons, hxo]
      by_cases hpx : p x = true <;> by_cases hpo' : p o' = true <;>
        simp [hpx, hpo']
    | false =>
      have hmem' : o ∈ xs := by
        rcases List.mem_cons.mp hmem with h | h
        · exact absurd (h ▸ hid) (by simpa using hb)
        · exact h
      have := ih hnd.2 hmem'
      unfold replaceOrder at this ⊢
      rw [List.map_cons, hb, if_neg (by simp)]
      rw [List.countP_cons, List.countP_cons]
      omega

theorem countP_pos_of_mem {l : List Order} {o : Order} {p : Order → Bool}
    (hmem : o ∈ l) (hp : p o = true) : 1 ≤ l.countP p :=
  List.countP_pos_iff.mpr ⟨o, hmem, hp⟩

theorem nodup_ids_append (l : List Order) (o : Order) (n : Nat)
    (hnd : (l.map (·.id)).Nodup) (hbound : ∀ x ∈ l, x.id < n) (ho : o.id = n) :
    ((l ++ [o]).map (·.id)).Nodup := by
  rw [List.map_append]
  apply List.Nodup.append hnd (by simp)
  intro a ha hb
  rcases List.mem_map.mp ha with ⟨x, hx, hax⟩
  simp only [List.map_cons, List.map_nil, List.mem_singleton] at hb
  have := hbound x hx
  omega
/-! ### Facts about the transition table and the serializer update -/

theorem serializerUpdate_id (o : Order) (v : OrderStatus) (now : Nat) :
    (serializerUpdate o v now).id = o.id := by
  cases v <;> rfl

theorem serializerUpdate_status (o : Order) (v : OrderStatus) (now : Nat) :
    (serializerUpdate o v now).status = v := by
  cases v <;> rfl

theorem serializerUpdate_courier (o : Order) (v : OrderStatus) (now : Nat) :
    (serializerUpdate o v now).assigned_courier = o.assigned_courier := by
  cases v <;> rfl

theorem created_not_target (st : OrderStatus) :
    OrderStatus.CREATED ∉ validTransitions st := by
  cases st <;> simp [validTransitions]

theorem target_assigned_source (st : OrderStatus)
    (h : OrderStatus.ASSIGNED ∈ validTransitions st) : st = .CREATED := by
  cases st <;> simp_all [validTransitions]

theorem target_picked_up_source (st : OrderStatus)
    (h : OrderStatus.PICKED_UP ∈ validTransitions st) : st = .ASSIGNED := by
  cases st <;> simp_all [validTransitions]

theorem target_in_transit_source (st : OrderStatus)
    (h : OrderStatus.IN_TRANSIT ∈ validTransitions st) : st = .PICKED_UP := by
  cases st <;> simp_all [validTransitions]

theorem target_delivered_source (st : OrderStatus)
    (h : OrderStatus.DELIVERED ∈ validTransitions st) : st = .IN_TRANSIT := by
  cases st <;> simp_all [validTransitions]

theorem target_cancelled_source (st : OrderStatus)
    (h : OrderStatus.CANCELLED ∈ validTransitions st) :
    st = .CREATED ∨ statusActive st = true := by
  cases st <;> simp_all [validTransitions, statusActive]

/-! ### Lemmas about least-loaded selection -/

theorem selectLeastLoaded_mem {l : List CourierStatus} {r : CourierStatus}
    (h : selectLeastLoaded l = some r) : r ∈ l := by
  induction l generalizing r with
  | nil => simp [selectLeastLoaded] at h
  | cons x xs ih =>
    rw [selectLeastLoaded] at h
    rcases hs : selectLeastLoaded xs with _ | b
    · rw [hs] at h
      simp at h
      simp [h]
    · rw [hs] at h
      by_cases hle : x.current_orders_count ≤ b.current_orders_count
      · simp [hle] at h
        simp [h]
      · simp [hle] at h
        exact List.mem_cons_of_mem x (ih (h ▸ hs))

theorem selectLeastLoaded_min {l : List CourierStatus} {r : CourierStatus}
    (h : selectLeastLoaded l = some r) :
    ∀ x ∈ l, r.current_orders_count ≤ x.current_orders_count := by
  induction l generalizing r with
  | nil => simp [selectLeastLoaded] at h
  | cons x xs ih =>
    intro y hy
    rw [selectLeastLoaded] at h
    rcases hs : selectLeastLoaded xs with _ | b
    · rw [hs] at h
      simp at h
      subst h
      rcases List.mem_cons.mp hy with hyx | hyxs
      · simp [hyx]
      · cases xs with
        | nil => simp at hyxs
        | cons z zs => simp [selectLeastLoaded] at hs; rcases hs' : selectLeastLoaded zs with _ | w <;> rw [hs'] at hs <;> [skip; by_cases hw : z.current_orders_count ≤ w.current_orders_count] <;> simp_all
    · rw [hs] at h
      rcases List.mem_cons.mp hy with hyx | hyxs
      · subst hyx
        by_cases hle : y.current_orders_count ≤ b.current_orders_count
        · simp [hle] at h; simp [h]
        · simp [hle] at h
          subst h
          omega
      · have hball := ih hs y hyxs
        by_cases hle : x.current_orders_count ≤ b.current_orders_count
        · simp [hle] at h
          subst h
          omega
        · simp [hle] at h
          subst h
          exact hball

theorem selectLeastLoaded_none {l : List CourierStatus} :
    selectLeastLoaded l = none ↔ l = [] := by
  cases l with
  | nil => simp [selectLeastLoaded]
  | cons x xs =>
    simp only [selectLeastLoaded]
    rcases hs : selectLeastLoaded xs with _ | b <;> simp
    by_cases hle : x.current_orders_count ≤ b.current_orders_count <;> simp [hle]
/-! ### Shape lemmas for the status-update endpoint -/

theorem updateStatus_err {s : State} {oid : Nat} {o : Order} {v : OrderStatus}
    {now : Nat} (h : findOrder s oid = some o)
    (hv : v ∉ validTransitions o.status) :
    updateStatus s oid v now = .error (.invalidTransition o.status v) := by
  unfold updateStatus
  rw [h]
  simp [hv]

theorem updateStatus_ok_exists {s : State} {oid : Nat} {o : Order} {v : OrderStatus}
    {now : Nat} (h : findOrder s oid = some o)
    (hv : v ∈ validTransitions o.status) :
    ∃ s', updateStatus s oid v now = .ok s' := by
  unfold updateStatus
  rw [h]
  simp only [hv, if_true]
  split
  · rcases hco : (serializerUpdate o v now).assigned_courier with _ | c
    · exact ⟨_, rfl⟩
    · exact ⟨_, rfl⟩
  · exact ⟨_, rfl⟩

/-- C1: for every order and every requested status, the status-update
operation succeeds iff the requested status is in the transition-table
entry for the order's current status; on failure it reports an invalid
transition carrying the current and requested statuses, and the store —
in particular the order's status — is unchanged. -/
theorem claim_status_transition_iff_table (s : State) (oid : Nat) (o : Order)
    (v : OrderStatus) (now : Nat) (h : findOrder s oid = some o) :
    ((∃ s', updateStatus s oid v now = .ok s') ↔ v ∈ validTransitions o.status) ∧
    (v ∉ validTransitions o.status →
      updateStatus s oid v now = .error (.invalidTransition o.status v) ∧
      applyOp s (.statusOp oid v now) = s) := by
  constructor
  · constructor
    · intro hok
      by_contra hv
      rcases hok with ⟨s', hs'⟩
      rw [updateStatus_err h hv] at hs'
      exact Except.noConfusion hs'
    · intro hv
      exact updateStatus_ok_exists h hv
  · intro hv
    refine ⟨updateStatus_err h hv, ?_⟩
    have happ : applyOp s (.statusOp oid v now) = orKeep s (updateStatus s oid v now) := rfl
    rw [happ, updateStatus_err h hv]
    rfl

/-- Witness for C1 at a concrete store: `exOrder` is ASSIGNED, so a
direct jump to DELIVERED is rejected and the store is unchanged. -/
theorem claim_status_transition_iff_table_witness :
    ((∃ s', updateStatus exState 0 .DELIVERED 20 = .ok s') ↔
      OrderStatus.DELIVERED ∈ validTransitions exOrder.status) ∧
    (OrderStatus.DELIVERED ∉ validTransitions exOrder.status →
      updateStatus exState 0 .DELIVERED 20 =
        .error (.invalidTransition exOrder.status .DELIVERED) ∧
      applyOp exState (.statusOp 0 .DELIVERED 20) = exState) :=
  claim_status_transition_iff_table exState 0 exOrder .DELIVERED 20 (by rfl)
/-- C4: after a successful transition to status `v`, exactly the
timestamp field corresponding to `v` is set to the current time
(ASSIGNED→assigned_at, PICKED_UP→picked_up_at, IN_TRANSIT→in_transit_at,
DELIVERED→delivered_at), CANCELLED sets no timestamp, and every other
timestamp field (including `created_at`) keeps its previous value. -/
theorem claim_transition_timestamps (o : Order) (v : OrderStatus) (now : Nat)
    (hv : v ∈ validTransitions o.status) :
    (serializerUpdate o v now).status = v ∧
    (serializerUpdate o v now).created_at = o.created_at ∧
    (v = .ASSIGNED →
      (serializerUpdate o v now).assigned_at = some now ∧
      (serializerUpdate o v now).picked_up_at = o.picked_up_at ∧
      (serializerUpdate o v now).in_transit_at = o.in_transit_at ∧
      (serializerUpdate o v now).delivered_at = o.delivered_at) ∧
    (v = .PICKED_UP →
      (serializerUpdate o v now).picked_up_at = some now ∧
      (serializerUpdate o v now).assigned_at = o.assigned_at ∧
      (serializerUpdate o v now).in_transit_at = o.in_transit_at ∧
      (serializerUpdate o v now).delivered_at = o.delivered_at) ∧
    (v = .IN_TRANSIT →
      (serializerUpdate o v now).in_transit_at = some now ∧
      (serializerUpdate o v now).assigned_at = o.assigned_at ∧
      (serializerUpdate o v now).picked_up_at = o.picked_up_at ∧
      (serializerUpdate o v now).delivered_at = o.delivered_at) ∧
    (v = .DELIVERED →
      (serializerUpdate o v now).delivered_at = some now ∧
      (serializerUpdate o v now).assigned_at = o.assigned_at ∧
      (serializerUpdate o v now).picked_up_at = o.picked_up_at ∧
      (serializerUpdate o v now).in_transit_at = o.in_transit_at) ∧
    (v = .CANCELLED →
      (serializerUpdate o v now).assigned_at = o.assigned_at ∧
      (serializerUpdate o v now).picked_up_at = o.picked_up_at ∧
      (serializerUpdate o v now).in_transit_at = o.in_transit_at ∧
      (serializerUpdate o v now).delivered_at = o.delivered_at) := by
  cases v <;> simp [serializerUpdate]

/-- Witness for C4: the ASSIGNED→PICKED_UP transition on `exOrder`
stamps `picked_up_at` and leaves the other timestamps alone. -/
theorem claim_transition_timestamps_witness :
    (serializerUpdate exOrder .PICKED_UP 20).status = OrderStatus.PICKED_UP ∧
    (serializerUpdate exOrder .PICKED_UP 20).created_at = exOrder.created_at ∧
    (OrderStatus.PICKED_UP = OrderStatus.ASSIGNED →
      (serializerUpdate exOrder .PICKED_UP 20).assigned_at = some 20 ∧
      (serializerUpdate exOrder .PICKED_UP 20).picked_up_at = exOrder.picked_up_at ∧
      (serializerUpdate exOrder .PICKED_UP 20).in_transit_at = exOrder.in_transit_at ∧
      (serializerUpdate exOrder .PICKED_UP 20).delivered_at = exOrder.delivered_at) ∧
    (OrderStatus.PICKED_UP = OrderStatus.PICKED_UP →
      (serializerUpdate exOrder .PICKED_UP 20).picked_up_at = some 20 ∧
      (serializerUpdate exOrder .PICKED_UP 20).assigned_at = exOrder.assigned_at ∧
      (serializerUpdate exOrder .PICKED_UP 20).in_transit_at = exOrder.in_transit_at ∧
      (serializerUpdate exOrder .PICKED_UP 20).delivered_at = exOrder.delivered_at) ∧
    (OrderStatus.PICKED_UP = OrderStatus.IN_TRANSIT →
      (serializerUpdate exOrder .PICKED_UP 20).in_transit_at = some 20 ∧
      (serializerUpdate exOrder .PICKED_UP 20).assigned_at = exOrder.assigned_at ∧
      (serializerUpdate exOrder .PICKED_UP 20).picked_up_at = exOrder.picked_up_at ∧
      (serializerUpdate exOrder .PICKED_UP 20).delivered_at = exOrder.delivered_at) ∧
    (OrderStatus.PICKED_UP = OrderStatus.DELIVERED →
      (serializerUpdate exOrder .PICKED_UP 20).delivered_at = some 20 ∧
      (serializerUpdate exOrder .PICKED_UP 20).assigned_at = exOrder.assigned_at ∧
      (serializerUpdate exOrder .PICKED_UP 20).picked_up_at = exOrder.picked_up_at ∧
      (serializerUpdate exOrder .PICKED_UP 20).in_transit_at = exOrder.in_transit_at) ∧
    (OrderStatus.PICKED_UP = OrderStatus.CANCELLED →
      (serializerUpdate exOrder .PICKED_UP 20).assigned_at = exOrder.assigned_at ∧
      (serializerUpdate exOrder .PICKED_UP 20).picked_up_at = exOrder.picked_up_at ∧
      (serializerUpdate exOrder .PICKED_UP 20).in_transit_at = exOrder.in_transit_at ∧
      (serializerUpdate exOrder .PICKED_UP 20).delivered_at = exOrder.delivered_at) :=
  claim_transition_timestamps exOrder .PICKED_UP 20 (by decide)

/-! ### Shape lemmas for order creation -/

theorem updateCourierWorkload_configs (s : State) (c : Nat) (change : Int) :
    (updateCourierWorkload s c change).configs = s.configs := rfl

theorem tryAutoAssignment_price (s : State) (o : Order) (now : Nat) :
    (tryAutoAssignment s o now).1.price = o.price := by
  unfold tryAutoAssignment
  rcases hsel : selectLeastLoaded (availableCouriers s) with _ | r <;> simp [hsel]

theorem tryAutoAssignment_distance (s : State) (o : Order) (now : Nat) :
    (tryAutoAssignment s o now).1.distance_km = o.distance_km := by
  unfold tryAutoAssignment
  rcases hsel : selectLeastLoaded (availableCouriers s) with _ | r <;> simp [hsel]

theorem tryAutoAssignment_id (s : State) (o : Order) (now : Nat) :
    (tryAutoAssignment s o now).1.id = o.id := by
  unfold tryAutoAssignment
  rcases hsel : selectLeastLoaded (availableCouriers s) with _ | r <;> simp [hsel]

theorem tryAutoAssignment_orders (s : State) (o : Order) (now : Nat) :
    (tryAutoAssignment s o now).2.orders = s.orders := by
  unfold tryAutoAssignment
  rcases hsel : selectLeastLoaded (availableCouriers s) with _ | r <;>
    simp [hsel, updateCourierWorkload_orders]

theorem tryAutoAssignment_configs (s : State) (o : Order) (now : Nat) :
    (tryAutoAssignment s o now).2.configs = s.configs := by
  unfold tryAutoAssignment
  rcases hsel : selectLeastLoaded (availableCouriers s) with _ | r <;>
    simp [hsel, updateCourierWorkload_configs]

theorem createOrder_ok_shape {s : State} {customer : Nat} {pickup delivery : String}
    {distance now : Nat} {s' : State}
    (hok : createOrder s customer pickup delivery distance now = .ok s') :
    ∃ cfg o', activeConfig s = some cfg ∧
      s'.orders = s.orders ++ [o'] ∧
      s'.nextOrderId = s.nextOrderId + 1 ∧
      s'.configs = s.configs ∧
      o'.id = s.nextOrderId ∧
      o'.distance_km = distance ∧
      o'.price = calculatePrice cfg.base_fee cfg.per_km_rate distance := by
  unfold createOrder at hok
  split at hok
  · exact Except.noConfusion hok
  split at hok
  · exact Except.noConfusion hok
  split at hok
  · exact Except.noConfusion hok
  split at hok
  · exact Except.noConfusion hok
  rcases hcfg : activeConfig s with _ | cfg
  · rw [hcfg] at hok
    exact Except.noConfusion hok
  rw [hcfg] at hok
  simp only [] at hok
  rcases hta : tryAutoAssignment s
      { id := s.nextOrderId, customer := customer, assigned_courier := none,
        pickup_address := pyStrip pickup, delivery_address := pyStrip delivery,
        distance_km := distance,
        price := calculatePrice cfg.base_fee cfg.per_km_rate distance,
        status := .CREATED, created_at := now, assigned_at := none,
        picked_up_at := none, in_transit_at := none, delivered_at := none }
      now with ⟨o', s1⟩
  rw [hta] at hok
  simp only [Except.ok.injEq] at hok
  subst hok
  have ho' := congrArg Prod.fst hta
  have hs1 := congrArg Prod.snd hta
  simp only [] at ho' hs1
  refine ⟨cfg, o', rfl, ?_, rfl, ?_, ?_, ?_, ?_⟩
  · show s1.orders ++ [o'] = s.orders ++ [o']
    rw [← hs1, tryAutoAssignment_orders]
  · show s1.configs = s.configs
    rw [← hs1, tryAutoAssignment_configs]
  · rw [← ho', tryAutoAssignment_id]
  · rw [← ho', tryAutoAssignment_distance]
  · rw [← ho', tryAutoAssignment_price]

/-- C5 counterexample: with base fee 50.00, rate 0.25 per km and
distance 0.10 km the exact price is 50.025; the code's
`quantize(Decimal('0.01'))` (ties to even) stores 50.02 while the
claim's half-up rounding demands 50.03. -/
theorem claim_price_half_up_counterexample :
    calculatePrice 5000 25 10 = 5002 ∧
    calculatePriceHalfUpSpec 5000 25 10 = 5003 ∧
    calculatePrice 5000 25 10 ≠ calculatePriceHalfUpSpec 5000 25 10 := by
  decide

/-- C5 (amended): the price stored on a newly created order equals
`base_fee + distance × per_km_rate` rounded to 2 decimal places with
round-half-to-even (Python `Decimal.quantize` under the default
context), not half-up; in particular distance 5.0 with base fee 50.00
and rate 20.00 yields price 150.00. -/
theorem claim_price_formula (s : State) (cfg : PricingConfig) (customer : Nat)
    (pickup delivery : String) (distance now : Nat) (s' : State)
    (hcfg : activeConfig s = some cfg)
    (hok : createOrder s customer pickup delivery distance now = .ok s') :
    (∃ o', s'.orders.getLast? = some o' ∧
      o'.price = quantizeCents (cfg.base_fee * 100 + distance * cfg.per_km_rate)) ∧
    calculatePrice 5000 2000 500 = 15000 := by
  obtain ⟨cfg₂, o', hcfg₂, horders, _, _, _, _, hprice⟩ := createOrder_ok_shape hok
  rw [hcfg] at hcfg₂
  have hceq : cfg = cfg₂ := by injection hcfg₂
  subst hceq
  constructor
  · refine ⟨o', ?_, ?_⟩
    · rw [horders]
      exact List.getLast?_concat _
    · rw [hprice]
      rfl
  · decide

/-- Witness for C5 (amended) at a concrete store: creating a 0.10 km
order against the active config (base 50.00, rate 20.00). -/
theorem claim_price_formula_witness :
    (∃ o', (orKeep exState (createOrder exState 0 "C st" "D st" 10 50)).orders.getLast? = some o' ∧
      o'.price = quantizeCents (5000 * 100 + 10 * 2000)) ∧
    calculatePrice 5000 2000 500 = 15000 :=
  claim_price_formula exState ⟨0, 5000, 2000, true⟩ 0 "C st" "D st" 10 50
    (orKeep exState (createOrder exState 0 "C st" "D st" 10 50)) rfl (by rfl)

/-- C10: when no pricing configuration is active, order creation fails
with the validation error "No active pricing configuration found" and
the store — in particular the set of stored orders — is unchanged
(field-valid inputs assumed, since the serializer checks them first). -/
theorem claim_create_no_active_config (s : State) (customer : Nat)
    (pickup delivery : String) (distance now : Nat)
    (hd : distance ≠ 0)
    (hp : pyStrip pickup ≠ "")
    (hq : pyStrip delivery ≠ "")
    (hne : pyLower (pyStrip pickup) ≠ pyLower (pyStrip delivery))
    (hcfg : activeConfig s = none) :
    createOrder s customer pickup delivery distance now =
      .error (.validation "No active pricing configuration found") ∧
    applyOp s (.createOp customer pickup delivery distance now) = s := by
  have herr : createOrder s customer pickup delivery distance now =
      .error (.validation "No active pricing configuration found") := by
    unfold createOrder
    rw [if_neg hd, if_neg hp, if_neg hq, if_neg hne, hcfg]
  refine ⟨herr, ?_⟩
  have happ : applyOp s (.createOp customer pickup delivery distance now) =
      orKeep s (createOrder s customer pickup delivery distance now) := rfl
  rw [happ, herr]
  rfl

/-- Witness for C10: `exEmptyState` has a single inactive config, so
creating an order fails and leaves the store unchanged. -/
theorem claim_create_no_active_config_witness :
    createOrder exEmptyState 0 "A st" "B st" 500 10 =
      .error (.validation "No active pricing configuration found") ∧
    applyOp exEmptyState (.createOp 0 "A st" "B st" 500 10) = exEmptyState :=
  claim_create_no_active_config exEmptyState 0 "A st" "B st" 500 10
    (by decide) (by decide) (by decide) (by decide) rfl

/-- C3: auto-assignment considers exactly the rows with
`is_available=True` whose user has role COURIER; when at least one such
row exists, the order is assigned to a courier whose
`current_orders_count` is minimal among them (in particular an
unavailable courier is never selected, whatever their workload); when
none exists, the order is returned untouched — no courier, status as
before — and no error is raised. -/
theorem claim_auto_assignment_least_loaded (s : State) (o : Order) (now : Nat) :
    (∀ r ∈ availableCouriers s,
      r.is_available = true ∧ s.role r.courier = Role.COURIER ∧ r ∈ s.courierRows) ∧
    (availableCouriers s ≠ [] →
      ∃ r, selectLeastLoaded (availableCouriers s) = some r ∧
        r ∈ availableCouriers s ∧
        (∀ x ∈ availableCouriers s, r.current_orders_count ≤ x.current_orders_count) ∧
        (tryAutoAssignment s o now).1.assigned_courier = some r.courier ∧
        (tryAutoAssignment s o now).1.status = .ASSIGNED ∧
        (tryAutoAssignment s o now).1.assigned_at = some now) ∧
    (availableCouriers s = [] → tryAutoAssignment s o now = (o, s)) := by
  refine ⟨?_, ?_, ?_⟩
  · intro r hr
    unfold availableCouriers at hr
    rcases List.mem_filter.mp hr with ⟨hmem, hp⟩
    rcases Bool.and_eq_true .. |>.mp hp with ⟨ha, hb⟩
    exact ⟨ha, by simpa using hb, hmem⟩
  · intro hne
    rcases hsel : selectLeastLoaded (availableCouriers s) with _ | r
    · exact absurd (selectLeastLoaded_none.mp hsel) hne
    · refine ⟨r, rfl, selectLeastLoaded_mem hsel, selectLeastLoaded_min hsel, ?_, ?_, ?_⟩ <;>
        · unfold tryAutoAssignment
          rw [hsel]
  · intro hempty
    unfold tryAutoAssignment
    rw [hempty]
    rfl

/-- Witness for C3 at `exState` (couriers 1 and 2 available with
workloads 1 and 0): the selection and assignment facts instantiated. -/
theorem claim_auto_assignment_least_loaded_witness :
    (∀ r ∈ availableCouriers exState,
      r.is_available = true ∧ exState.role r.courier = Role.COURIER ∧ r ∈ exState.courierRows) ∧
    (availableCouriers exState ≠ [] →
      ∃ r, selectLeastLoaded (availableCouriers exState) = some r ∧
        r ∈ availableCouriers exState ∧
        (∀ x ∈ availableCouriers exState, r.current_orders_count ≤ x.current_orders_count) ∧
        (tryAutoAssignment exState exOrder 30).1.assigned_courier = some r.courier ∧
        (tryAutoAssignment exState exOrder 30).1.status = .ASSIGNED ∧
        (tryAutoAssignment exState exOrder 30).1.assigned_at = some 30) ∧
    (availableCouriers exState = [] → tryAutoAssignment exState exOrder 30 = (exOrder, exState)) :=
  claim_auto_assignment_least_loaded exState exOrder 30

/-- C6 counterexample: `exOrder` is ASSIGNED to courier 1 with
`assigned_at = 10`; manually assigning courier 1 again does NOT fail
with an already-assigned error — it succeeds and refreshes
`assigned_at` to the current time 40. -/
theorem claim_assign_same_courier_counterexample :
    assignCourier exState 0 1 40 =
      .ok { exState with orders := [{ exOrder with assigned_at := some 40 }] } ∧
    exOrder.assigned_at = some 10 ∧
    (some 40 : Option Nat) ≠ exOrder.assigned_at := by
  refine ⟨rfl, rfl, by decide⟩

/-- C6 (amended): manually assigning the courier already assigned to an
ASSIGNED order succeeds (no error is raised); the order's status,
assigned courier and every workload counter are unchanged, but
`assigned_at` is refreshed to the current time. -/
theorem claim_assign_same_courier_noop_refresh (s : State) (oid cid now : Nat)
    (o : Order)
    (hfind : findOrder s oid = some o)
    (hst : o.status = .ASSIGNED)
    (hcur : o.assigned_courier = some cid)
    (hrole : s.role cid = Role.COURIER)
    (havail : rowAvailable (getOrCreateRow s.courierRows cid) cid = true) :
    ∃ s', assignCourier s oid cid now = .ok s' ∧
      findOrder s' oid = some { o with assigned_at := some now } ∧
      (∀ c, getWorkload s' c = getWorkload s c) := by
  have hval : validateCourierId s cid =
      .ok { s with courierRows := getOrCreateRow s.courierRows cid } := by
    unfold validateCourierId
    rw [if_pos hrole, if_pos havail]
  obtain ⟨f1, f2, f3, f4, f5, f6, f7, f8, f9, f10, f11, f12, f13⟩ := o
  replace hst : f8 = .ASSIGNED := hst
  replace hcur : f3 = some cid := hcur
  subst hst
  subst hcur
  unfold assignCourier
  rw [hfind]
  simp only [hval]
  rw [if_pos (Or.inr trivial : OrderStatus.ASSIGNED = OrderStatus.CREATED ∨ True)]
  rw [if_neg (by simp : ¬ (cid ≠ cid))]
  rw [if_neg (by simp : ¬ ((some cid : Option Nat) ≠ some cid))]
  refine ⟨_, rfl, ?_, ?_⟩
  · have hid : f1 = oid := findOrder_id hfind
    exact findOrder_state_replace hfind hid rfl
  · intro c
    exact (getWorkload_ignores_orders
        { s with courierRows := getOrCreateRow s.courierRows cid }
        (replaceOrder s.orders oid
          (Order.mk f1 f2 (some cid) f4 f5 f6 f7 .ASSIGNED f9 (some now) f11 f12 f13)) c).trans
      (getWorkload_getOrCreateRow s cid c)

/-- Witness for C6 (amended): re-assigning courier 1 to `exOrder`
(already theirs) succeeds and only refreshes `assigned_at`. -/
theorem claim_assign_same_courier_noop_refresh_witness :
    ∃ s', assignCourier exState 0 1 40 = .ok s' ∧
      findOrder s' 0 = some { exOrder with assigned_at := some 40 } ∧
      (∀ c, getWorkload s' c = getWorkload exState c) :=
  claim_assign_same_courier_noop_refresh exState 0 1 40 exOrder rfl rfl rfl rfl rfl

/-- Workload effect of the reassignment pair of
`_update_courier_workload` calls: old courier −1, new courier +1,
everyone else untouched. -/
theorem getWorkload_dec_inc (s : State) (old cid : Nat) (hne : old ≠ cid)
    (hwl : 1 ≤ getWorkload s old) :
    getWorkload (updateCourierWorkload (updateCourierWorkload s old (-1)) cid 1) old + 1 =
      getWorkload s old ∧
    getWorkload (updateCourierWorkload (updateCourierWorkload s old (-1)) cid 1) cid =
      getWorkload s cid + 1 ∧
    (∀ c, c ≠ old → c ≠ cid →
      getWorkload (updateCourierWorkload (updateCourierWorkload s old (-1)) cid 1) c =
        getWorkload s c) := by
  refine ⟨?_, ?_, ?_⟩
  · rw [getWorkload_update_other _ cid old 1 hne]
    rw [getWorkload_update_self s old (-1)]
    omega
  · rw [getWorkload_update_self (updateCourierWorkload s old (-1)) cid 1]
    rw [getWorkload_update_other s old cid (-1) (fun h => hne h.symm)]
    omega
  · intro c hco hcc
    rw [getWorkload_update_other _ cid c 1 hcc]
    rw [getWorkload_update_other s old c (-1) hco]

/-- C7: a successful reassignment of an ASSIGNED or PICKED_UP order to
a different courier decrements the old courier's workload by one,
increments the new courier's workload by one, leaves every other
workload untouched, sets `assigned_courier` to the new courier and
refreshes `assigned_at`; if the prior status was PICKED_UP, the status
is rolled back to ASSIGNED and `picked_up_at` is cleared. -/
theorem claim_reassign_effects (s : State) (oid cid now : Nat) (o : Order)
    (old : Nat)
    (hfind : findOrder s oid = some o)
    (hst : o.status = .ASSIGNED ∨ o.status = .PICKED_UP)
    (hcur : o.assigned_courier = some old)
    (hne : old ≠ cid)
    (hrole : s.role cid = Role.COURIER)
    (havail : rowAvailable (getOrCreateRow s.courierRows cid) cid = true)
    (hwl : 1 ≤ getWorkload s old) :
    ∃ s', reassignCourier s oid cid now = .ok s' ∧
      getWorkload s' old + 1 = getWorkload s old ∧
      getWorkload s' cid = getWorkload s cid + 1 ∧
      (∀ c, c ≠ old → c ≠ cid → getWorkload s' c = getWorkload s c) ∧
      (o.status = .ASSIGNED →
        findOrder s' oid =
          some { o with assigned_courier := some cid, assigned_at := some now }) ∧
      (o.status = .PICKED_UP →
        findOrder s' oid =
          some { o with assigned_courier := some cid, assigned_at := some now,
                        status := .ASSIGNED, picked_up_at := none }) := by
  have hval : validateCourierId s cid =
      .ok { s with courierRows := getOrCreateRow s.courierRows cid } := by
    unfold validateCourierId
    rw [if_pos hrole, if_pos havail]
  have hwl1 : 1 ≤ getWorkload { s with courierRows := getOrCreateRow s.courierRows cid } old := by
    rw [getWorkload_getOrCreateRow s cid old]
    exact hwl
  have hgoc : ∀ c : Nat,
      getWorkload { s with courierRows := getOrCreateRow s.courierRows cid } c =
        getWorkload s c := fun c => getWorkload_getOrCreateRow s cid c
  obtain ⟨hdec, hinc, hoth⟩ :=
    getWorkload_dec_inc { s with courierRows := getOrCreateRow s.courierRows cid }
      old cid hne hwl1
  obtain ⟨f1, f2, f3, f4, f5, f6, f7, f8, f9, f10, f11, f12, f13⟩ := o
  replace hcur : f3 = some old := hcur
  subst hcur
  rcases hst with h8 | h8
  · replace h8 : f8 = .ASSIGNED := h8
    subst h8
    have hres : reassignCourier s oid cid now = .ok { updateCourierWorkload (updateCourierWorkload { s with courierRows := getOrCreateRow s.courierRows cid } old (-1)) cid 1 with orders := replaceOrder s.orders oid (Order.mk f1 f2 (some cid) f4 f5 f6 f7 .ASSIGNED f9 (some now) f11 f12 f13) } := by
      unfold reassignCourier
      rw [hfind]
      simp only [hval]
      rw [if_pos (Or.inl trivial : True ∨ OrderStatus.ASSIGNED = OrderStatus.PICKED_UP)]
      rw [if_neg hne]
      rfl
    refine ⟨_, hres, ?_, ?_, ?_, ?_, ?_⟩
    · rw [getWorkload_ignores_orders]
      rw [← hgoc old]
      exact hdec
    · rw [getWorkload_ignores_orders]
      rw [← hgoc cid]
      exact hinc
    · intro c hco hcc
      rw [getWorkload_ignores_orders]
      rw [← hgoc c]
      exact hoth c hco hcc
    · intro _
      have hid : f1 = oid := findOrder_id hfind
      exact findOrder_state_replace hfind hid rfl
    · intro h
      simp at h
  · replace h8 : f8 = .PICKED_UP := h8
    subst h8
    have hres : reassignCourier s oid cid now = .ok { updateCourierWorkload (updateCourierWorkload { s with courierRows := getOrCreateRow s.courierRows cid } old (-1)) cid 1 with orders := replaceOrder s.orders oid (Order.mk f1 f2 (some cid) f4 f5 f6 f7 .ASSIGNED f9 (some now) none f12 f13) } := by
      unfold reassignCourier
      rw [hfind]
      simp only [hval]
      rw [if_pos (Or.inr trivial : OrderStatus.PICKED_UP = OrderStatus.ASSIGNED ∨ True)]
      rw [if_neg hne]
      rfl
    refine ⟨_, hres, ?_, ?_, ?_, ?_, ?_⟩
    · rw [getWorkload_ignores_orders]
      rw [← hgoc old]
      exact hdec
    · rw [getWorkload_ignores_orders]
      rw [← hgoc cid]
      exact hinc
    · intro c hco hcc
      rw [getWorkload_ignores_orders]
      rw [← hgoc c]
      exact hoth c hco hcc
    · intro h
      simp at h
    · intro _
      have hid : f1 = oid := findOrder_id hfind
      exact findOrder_state_replace hfind hid rfl

/-- Witness for C7: reassigning `exOrder` (ASSIGNED to courier 1, who
has workload 1) to courier 2 (workload 0). -/
theorem claim_reassign_effects_witness :
    ∃ s', reassignCourier exState 0 2 50 = .ok s' ∧
      getWorkload s' 1 + 1 = getWorkload exState 1 ∧
      getWorkload s' 2 = getWorkload exState 2 + 1 ∧
      (∀ c, c ≠ 1 → c ≠ 2 → getWorkload s' c = getWorkload exState c) ∧
      (exOrder.status = .ASSIGNED →
        findOrder s' 0 =
          some { exOrder with assigned_courier := some 2, assigned_at := some 50 }) ∧
      (exOrder.status = .PICKED_UP →
        findOrder s' 0 =
          some { exOrder with assigned_courier := some 2, assigned_at := some 50,
                              status := .ASSIGNED, picked_up_at := none }) :=
  claim_reassign_effects exState 0 2 50 exOrder 1 rfl (Or.inl rfl) rfl
    (by decide) rfl rfl (by decide)

/-- The pricing endpoints read and write only the `PricingConfig`
table: a sequence of pricing operations leaves `orders` untouched. -/
theorem pricing_ops_preserve_orders (t : State) (ops : List Op)
    (hops : ∀ op ∈ ops, op.isPricing = true) :
    (applyOps t ops).orders = t.orders := by
  induction ops generalizing t with
  | nil => rfl
  | cons op rest ih =>
    have hop : op.isPricing = true := hops op (List.mem_cons_self op rest)
    have hrest : ∀ o ∈ rest, Op.isPricing o = true :=
      fun o ho => hops o (List.mem_cons_of_mem _ ho)
    have hstep : applyOps t (op :: rest) = applyOps (applyOp t op) rest := rfl
    rw [hstep, ih (applyOp t op) hrest]
    cases op with
    | pricingCreateOp b r => rfl
    | pricingActivateOp cid =>
      show (orKeep t (pricingActivate t cid)).orders = t.orders
      unfold pricingActivate
      split
      · rfl
      · rfl
    | createOp customer pickup delivery distance now => simp [Op.isPricing] at hop
    | statusOp oid v now => simp [Op.isPricing] at hop
    | assignOp oid cid now => simp [Op.isPricing] at hop
    | reassignOp oid cid now => simp [Op.isPricing] at hop
    | acceptOp oid cid now => simp [Op.isPricing] at hop
    | availOp cid avail => simp [Op.isPricing] at hop

/-- C9: the price stored at order creation is never changed by later
pricing-configuration operations — after any sequence of pricing-config
creations and activations, the stored orders are untouched and the new
order's price still equals the value computed from the configuration
that was active when it was created. -/
theorem claim_pricing_change_isolation (s : State) (cfg : PricingConfig)
    (customer : Nat) (pickup delivery : String) (distance now : Nat)
    (s' : State) (ops : List Op)
    (hcfg : activeConfig s = some cfg)
    (hok : createOrder s customer pickup delivery distance now = .ok s')
    (hops : ∀ op ∈ ops, op.isPricing = true) :
    (applyOps s' ops).orders = s'.orders ∧
    (∃ o', (applyOps s' ops).orders.getLast? = some o' ∧
      o'.price = calculatePrice cfg.base_fee cfg.per_km_rate distance) := by
  have hpres := pricing_ops_preserve_orders s' ops hops
  obtain ⟨cfg₂, o', hcfg₂, horders, _, _, _, _, hprice⟩ := createOrder_ok_shape hok
  rw [hcfg] at hcfg₂
  have hceq : cfg = cfg₂ := by injection hcfg₂
  subst hceq
  refine ⟨hpres, o', ?_, hprice⟩
  rw [hpres, horders]
  exact List.getLast?_concat _

/-- Witness for C9: create an order at `exState`, then create and
activate new pricing configs; the stored price is untouched. -/
theorem claim_pricing_change_isolation_witness :
    (applyOps (orKeep exState (createOrder exState 0 "C st" "D st" 10 50))
        [.pricingCreateOp 9999 1, .pricingActivateOp 0]).orders =
      (orKeep exState (createOrder exState 0 "C st" "D st" 10 50)).orders ∧
    (∃ o', (applyOps (orKeep exState (createOrder exState 0 "C st" "D st" 10 50))
        [.pricingCreateOp 9999 1, .pricingActivateOp 0]).orders.getLast? = some o' ∧
      o'.price = calculatePrice 5000 2000 10) :=
  claim_pricing_change_isolation exState ⟨0, 5000, 2000, true⟩ 0 "C st" "D st" 10 50
    (orKeep exState (createOrder exState 0 "C st" "D st" 10 50))
    [.pricingCreateOp 9999 1, .pricingActivateOp 0] rfl (by rfl) (by decide)

/-! ### Result shapes of the endpoints, for the workload induction -/

theorem validateCourierId_ok {s : State} {cid : Nat} {s1 : State}
    (h : validateCourierId s cid = .ok s1) :
    s.role cid = Role.COURIER ∧
    rowAvailable (getOrCreateRow s.courierRows cid) cid = true ∧
    s1 = { s with courierRows := getOrCreateRow s.courierRows cid } := by
  unfold validateCourierId at h
  by_cases hrole : s.role cid = Role.COURIER
  · rw [if_pos hrole] at h
    simp only [] at h
    by_cases hav : rowAvailable (getOrCreateRow s.courierRows cid) cid = true
    · rw [if_pos hav] at h
      injection h with h
      exact ⟨hrole, hav, h.symm⟩
    · rw [if_neg hav] at h
      exact Except.noConfusion h
  · rw [if_neg hrole] at h
    exact Except.noConfusion h

theorem updateAvailability_ok_explicit {s : State} {cid : Nat} {avail : Bool}
    {s₂ : State} (hok : updateAvailability s cid avail = .ok s₂) :
    s₂ = { s with courierRows := (getOrCreateRow s.courierRows cid).map
                    (fun r => if r.courier == cid then { r with is_available := avail } else r) } := by
  unfold updateAvailability at hok
  by_cases hrole : s.role cid = Role.COURIER
  · rw [if_pos hrole] at hok
    injection hok with hok
    exact hok.symm
  · rw [if_neg hrole] at hok
    exact Except.noConfusion hok

theorem getWorkload_avail_rows (s : State) (cid : Nat) (avail : Bool) (c : Nat) :
    getWorkload { s with courierRows := (getOrCreateRow s.courierRows cid).map
                           (fun r => if r.courier == cid then { r with is_available := avail } else r) } c =
    getWorkload s c := by
  unfold getWorkload
  simp only []
  rw [findRow_map_ite _ cid c _ (fun r => by cases hb : r.courier == cid <;> simp [hb])]
  rw [findRow_getOrCreateRow]
  by_cases hc : cid = c
  · subst hc
    rcases ho : findRow s.courierRows cid with _ | r
    · simp [ho]
    · have hceq : r.courier = cid := by
        have := List.find?_some ho
        simpa using this
      simp [ho, hceq]
  · rcases ho : findRow s.courierRows c with _ | r
    · simp [ho, hc]
    · have hceq : r.courier = c := by
        have := List.find?_some ho
        simpa using this
      have hne2 : r.courier ≠ cid := by
        rw [hceq]
        exact fun hh => hc hh.symm
      simp [ho, hc, hne2]

theorem tryAutoAssignment_cases (s : State) (o : Order) (now : Nat) :
    (selectLeastLoaded (availableCouriers s) = none ∧ tryAutoAssignment s o now = (o, s)) ∨
    (∃ r, selectLeastLoaded (availableCouriers s) = some r ∧
      tryAutoAssignment s o now =
        ({ o with assigned_courier := some r.courier, status := .ASSIGNED,
                  assigned_at := some now },
         updateCourierWorkload s r.courier 1)) := by
  unfold tryAutoAssignment
  rcases hsel : selectLeastLoaded (availableCouriers s) with _ | r
  · exact Or.inl ⟨rfl, rfl⟩
  · exact Or.inr ⟨r, rfl, rfl⟩

theorem pricingActivate_ok_explicit {s : State} {cid : Nat} {s₂ : State}
    (hok : pricingActivate s cid = .ok s₂) :
    s₂.orders = s.orders ∧ s₂.courierRows = s.courierRows ∧
    s₂.nextOrderId = s.nextOrderId := by
  unfold pricingActivate at hok
  split at hok
  · injection hok with hok
    subst hok
    exact ⟨rfl, rfl, rfl⟩
  · exact Except.noConfusion hok

theorem updateStatus_ok_explicit {s : State} {oid : Nat} {v : OrderStatus}
    {now : Nat} {s₂ : State} (hok : updateStatus s oid v now = .ok s₂) :
    ∃ o, findOrder s oid = some o ∧ v ∈ validTransitions o.status ∧
      ((¬(v = .DELIVERED ∨ v = .CANCELLED) ∧
         s₂ = { s with orders := replaceOrder s.orders oid (serializerUpdate o v now) }) ∨
       ((v = .DELIVERED ∨ v = .CANCELLED) ∧ o.assigned_courier = none ∧
         s₂ = { s with orders := replaceOrder s.orders oid (serializerUpdate o v now) }) ∨
       (∃ c, (v = .DELIVERED ∨ v = .CANCELLED) ∧ o.assigned_courier = some c ∧
         s₂ = updateCourierWorkload
           { s with orders := replaceOrder s.orders oid (serializerUpdate o v now) } c (-1))) := by
  unfold updateStatus at hok
  rcases hfind : findOrder s oid with _ | o
  · rw [hfind] at hok
    exact Except.noConfusion hok
  rw [hfind] at hok
  simp only [] at hok
  by_cases hv : v ∈ validTransitions o.status
  · rw [if_pos hv] at hok
    refine ⟨o, rfl, hv, ?_⟩
    by_cases hterm : (serializerUpdate o v now).status = .DELIVERED ∨
        (serializerUpdate o v now).status = .CANCELLED
    · rw [if_pos hterm] at hok
      rw [serializerUpdate_status] at hterm
      rcases hco : (serializerUpdate o v now).assigned_courier with _ | c
      · rw [hco] at hok
        injection hok with hok
        rw [serializerUpdate_courier] at hco
        exact Or.inr (Or.inl ⟨hterm, hco, hok.symm⟩)
      · rw [hco] at hok
        injection hok with hok
        rw [serializerUpdate_courier] at hco
        exact Or.inr (Or.inr ⟨c, hterm, hco, hok.symm⟩)
    · rw [if_neg hterm] at hok
      rw [serializerUpdate_status] at hterm
      injection hok with hok
      exact Or.inl ⟨hterm, hok.symm⟩
  · rw [if_neg hv] at hok
    exact Except.noConfusion hok

theorem createOrder_ok_explicit {s : State} {customer : Nat}
    {pickup delivery : String} {distance now : Nat} {s₂ : State}
    (hok : createOrder s customer pickup delivery distance now = .ok s₂) :
    ∃ cfg, activeConfig s = some cfg ∧
      s₂ = { (tryAutoAssignment s
          (Order.mk s.nextOrderId customer none (pyStrip pickup) (pyStrip delivery)
            distance (calculatePrice cfg.base_fee cfg.per_km_rate distance)
            .CREATED now none none none none) now).2 with
        orders := (tryAutoAssignment s
          (Order.mk s.nextOrderId customer none (pyStrip pickup) (pyStrip delivery)
            distance (calculatePrice cfg.base_fee cfg.per_km_rate distance)
            .CREATED now none none none none) now).2.orders ++
          [(tryAutoAssignment s
            (Order.mk s.nextOrderId customer none (pyStrip pickup) (pyStrip delivery)
              distance (calculatePrice cfg.base_fee cfg.per_km_rate distance)
              .CREATED now none none none none) now).1],
        nextOrderId := s.nextOrderId + 1 } := by
  unfold createOrder at hok
  split at hok
  · exact Except.noConfusion hok
  split at hok
  · exact Except.noConfusion hok
  split at hok
  · exact Except.noConfusion hok
  split at hok
  · exact Except.noConfusion hok
  rcases hcfg : activeConfig s with _ | cfg
  · rw [hcfg] at hok
    exact Except.noConfusion hok
  rw [hcfg] at hok
  simp only [] at hok
  refine ⟨cfg, rfl, ?_⟩
  rcases hta : tryAutoAssignment s
      (Order.mk s.nextOrderId customer none (pyStrip pickup) (pyStrip delivery)
        distance (calculatePrice cfg.base_fee cfg.per_km_rate distance)
        .CREATED now none none none none) now with ⟨o', s1⟩
  rw [hta] at hok
  simp only [Except.ok.injEq] at hok
  rw [← hok]

theorem assignCourier_ok_explicit {s : State} {oid cid now : Nat} {s₂ : State}
    (hok : assignCourier s oid cid now = .ok s₂) :
    ∃ o, findOrder s oid = some o ∧ (o.status = .CREATED ∨ o.status = .ASSIGNED) ∧
      s.role cid = Role.COURIER ∧
      ((o.assigned_courier = some cid ∧
         s₂ = { { s with courierRows := getOrCreateRow s.courierRows cid } with
                orders := replaceOrder s.orders oid { o with assigned_courier := some cid, status := .ASSIGNED, assigned_at := some now } }) ∨
       (o.assigned_courier = none ∧
         s₂ = updateCourierWorkload { { s with courierRows := getOrCreateRow s.courierRows cid } with
                orders := replaceOrder s.orders oid { o with assigned_courier := some cid, status := .ASSIGNED, assigned_at := some now } } cid 1) ∨
       (∃ old, o.assigned_courier = some old ∧ old ≠ cid ∧
         s₂ = updateCourierWorkload { updateCourierWorkload { s with courierRows := getOrCreateRow s.courierRows cid } old (-1) with
                orders := replaceOrder s.orders oid { o with assigned_courier := some cid, status := .ASSIGNED, assigned_at := some now } } cid 1)) := by
  unfold assignCourier at hok
  rcases hfind : findOrder s oid with _ | o
  · rw [hfind] at hok
    exact Except.noConfusion hok
  rw [hfind] at hok
  simp only [] at hok
  by_cases hst : o.status = .CREATED ∨ o.status = .ASSIGNED
  · rw [if_pos hst] at hok
    rcases hval : validateCourierId s cid with e | s1
    · rw [hval] at hok
      exact Except.noConfusion hok
    rw [hval] at hok
    obtain ⟨hrole, _, hs1⟩ := validateCourierId_ok hval
    subst hs1
    refine ⟨o, rfl, hst, hrole, ?_⟩
    rcases hoc : o.assigned_courier with _ | old
    · rw [hoc] at hok
      simp only [] at hok
      rw [if_pos (by simp : (none : Option Nat) ≠ some cid)] at hok
      injection hok with hok
      exact Or.inr (Or.inl ⟨rfl, hok.symm⟩)
    · rw [hoc] at hok
      simp only [] at hok
      by_cases holdcid : old = cid
      · subst holdcid
        rw [if_neg (by simp : ¬ (old ≠ old))] at hok
        rw [if_neg (by simp : ¬ ((some old : Option Nat) ≠ some old))] at hok
        injection hok with hok
        exact Or.inl ⟨rfl, hok.symm⟩
      · rw [if_pos holdcid] at hok
        rw [if_pos (by simpa using holdcid : (some old : Option Nat) ≠ some cid)] at hok
        injection hok with hok
        exact Or.inr (Or.inr ⟨old, rfl, holdcid, hok.symm⟩)
  · rw [if_neg hst] at hok
    exact Except.noConfusion hok

theorem acceptOrder_ok_explicit {s : State} {oid cid now : Nat} {s₂ : State}
    (hok : acceptOrder s oid cid now = .ok s₂) :
    ∃ o, findOrder s oid = some o ∧ o.status = .CREATED ∧ s.role cid = Role.COURIER ∧
      s₂ = updateCourierWorkload { { s with courierRows := getOrCreateRow s.courierRows cid } with
            orders := replaceOrder s.orders oid { o with assigned_courier := some cid, status := .ASSIGNED, assigned_at := some now } } cid 1 := by
  unfold acceptOrder at hok
  by_cases hrole : s.role cid = Role.COURIER
  · rw [if_pos hrole] at hok
    rcases hfind : findOrder s oid with _ | o
    · rw [hfind] at hok
      exact Except.noConfusion hok
    rw [hfind] at hok
    simp only [] at hok
    by_cases hst : o.status = .CREATED
    · rw [if_pos hst] at hok
      by_cases hav : rowAvailable (getOrCreateRow s.courierRows cid) cid = true
      · rw [if_pos hav] at hok
        injection hok with hok
        exact ⟨o, rfl, hst, hrole, hok.symm⟩
      · rw [if_neg hav] at hok
        exact Except.noConfusion hok
    · rw [if_neg hst] at hok
      exact Except.noConfusion hok
  · rw [if_neg hrole] at hok
    exact Except.noConfusion hok

theorem reassignCourier_ok_explicit {s : State} {oid cid now : Nat} {s₂ : State}
    (hok : reassignCourier s oid cid now = .ok s₂) :
    ∃ o old, findOrder s oid = some o ∧ (o.status = .ASSIGNED ∨ o.status = .PICKED_UP) ∧
      o.assigned_courier = some old ∧ old ≠ cid ∧ s.role cid = Role.COURIER ∧
      s₂ = { updateCourierWorkload (updateCourierWorkload { s with courierRows := getOrCreateRow s.courierRows cid } old (-1)) cid 1 with
             orders := replaceOrder s.orders oid
               (if o.status = .PICKED_UP then
                 { o with assigned_courier := some cid, assigned_at := some now, status := .ASSIGNED, picked_up_at := none }
               else
                 { o with assigned_courier := some cid, assigned_at := some now }) } := by
  unfold reassignCourier at hok
  rcases hfind : findOrder s oid with _ | o
  · rw [hfind] at hok
    exact Except.noConfusion hok
  rw [hfind] at hok
  simp only [] at hok
  by_cases hst : o.status = .ASSIGNED ∨ o.status = .PICKED_UP
  · rw [if_pos hst] at hok
    rcases hoc : o.assigned_courier with _ | old
    · rw [hoc] at hok
      exact Except.noConfusion hok
    rw [hoc] at hok
    simp only [] at hok
    rcases hval : validateCourierId s cid with e | s1
    · rw [hval] at hok
      exact Except.noConfusion hok
    rw [hval] at hok
    obtain ⟨hrole, _, hs1⟩ := validateCourierId_ok hval
    subst hs1
    simp only [] at hok
    by_cases holdcid : old = cid
    · rw [if_pos holdcid] at hok
      exact Except.noConfusion hok
    · rw [if_neg holdcid] at hok
      injection hok with hok
      refine ⟨o, old, rfl, hst, hoc, holdcid, hrole, ?_⟩
      rw [← hok]
      by_cases hpu : o.status = .PICKED_UP
      · rw [if_pos hpu]
        rfl
      · rw [if_neg hpu]
        rfl
  · rw [if_neg hst] at hok
    exact Except.noConfusion hok

/-! ### Preservation of well-formedness by each endpoint -/

theorem WF_replace_step (s : State) (oid : Nat) (o o' : Order) (t : State)
    (h : WF s)
    (hfind : findOrder s oid = some o)
    (hid : o'.id = oid)
    (hstatus : o'.status ≠ .CREATED)
    (ht_orders : t.orders = replaceOrder s.orders oid o')
    (ht_next : t.nextOrderId = s.nextOrderId)
    (hwork : ∀ c, getWorkload t c +
        (if o.assigned_courier == some c && statusActive o.status then 1 else 0) =
      getWorkload s c +
        (if o'.assigned_courier == some c && statusActive o'.status then 1 else 0)) :
    WF t := by
  obtain ⟨hnd, hbound, hcreated, hw⟩ := h
  have hmem := findOrder_mem hfind
  have hidm := findOrder_id hfind
  refine ⟨?_, ?_, ?_, ?_⟩
  · rw [ht_orders, ids_replaceOrder _ _ _ hid]
    exact hnd
  · intro y hy
    rw [ht_orders] at hy
    rw [ht_next]
    rcases mem_replaceOrder hy with h1 | h1
    · subst h1
      rw [hid, ← hidm]
      exact hbound o hmem
    · exact hbound y h1
  · intro y hy hs
    rw [ht_orders] at hy
    rcases mem_replaceOrder hy with h1 | h1
    · subst h1
      exact absurd hs hstatus
    · exact hcreated y h1 hs
  · intro c
    have hcp := countP_replace s.orders oid o o'
      (fun x => x.assigned_courier == some c && statusActive x.status) hnd hmem hidm
    simp only [] at hcp
    have hwc := hwork c
    have hmain := hw c
    unfold countActive at hmain ⊢
    rw [ht_orders]
    omega

theorem ind_eq_nonterminal (s : State) (o : Order) (v : OrderStatus) (now : Nat)
    (c : Nat) (h : WF s) (hmem : o ∈ s.orders) (hv : v ∈ validTransitions o.status)
    (hterm : ¬(v = .DELIVERED ∨ v = .CANCELLED)) :
    (o.assigned_courier == some c && statusActive o.status) =
    ((serializerUpdate o v now).assigned_courier == some c &&
      statusActive (serializerUpdate o v now).status) := by
  rw [serializerUpdate_courier, serializerUpdate_status]
  cases v with
  | CREATED => exact absurd hv (created_not_target _)
  | DELIVERED => exact absurd (Or.inl rfl) hterm
  | CANCELLED => exact absurd (Or.inr rfl) hterm
  | ASSIGNED =>
    have hcs : o.status = .CREATED := target_assigned_source _ hv
    have hnone : o.assigned_courier = none := h.2.2.1 o hmem hcs
    rw [hnone]
    simp
  | PICKED_UP =>
    have hcs : o.status = .ASSIGNED := target_picked_up_source _ hv
    rw [hcs]
    rfl
  | IN_TRANSIT =>
    have hcs : o.status = .PICKED_UP := target_in_transit_source _ hv
    rw [hcs]
    rfl

theorem statusActive_of_terminal_source {s : State} {o : Order} {v : OrderStatus}
    (h : WF s) (hmem : o ∈ s.orders) (hv : v ∈ validTransitions o.status)
    (hterm : v = .DELIVERED ∨ v = .CANCELLED) {c₀ : Nat}
    (hsome : o.assigned_courier = some c₀) :
    statusActive o.status = true := by
  rcases hterm with hterm | hterm
  · subst hterm
    rw [target_delivered_source _ hv]
    rfl
  · subst hterm
    rcases target_cancelled_source _ hv with hcs | hcs
    · exact absurd (h.2.2.1 o hmem hcs ▸ hsome) (by simp)
    · exact hcs

theorem WF_updateStatus (s : State) (oid : Nat) (v : OrderStatus) (now : Nat)
    (s₂ : State) (h : WF s) (hok : updateStatus s oid v now = .ok s₂) : WF s₂ := by
  obtain ⟨o, hfind, hv, hcase⟩ := updateStatus_ok_explicit hok
  have hmem := findOrder_mem hfind
  have hidm := findOrder_id hfind
  have hid : (serializerUpdate o v now).id = oid := by
    rw [serializerUpdate_id]
    exact hidm
  have hstatus : (serializerUpdate o v now).status ≠ .CREATED := by
    rw [serializerUpdate_status]
    intro hc
    subst hc
    exact created_not_target _ hv
  have hco := serializerUpdate_courier o v now
  have hso := serializerUpdate_status o v now
  rcases hcase with ⟨hterm, hs₂⟩ | ⟨hterm, hnone, hs₂⟩ | ⟨c₀, hterm, hsome, hs₂⟩
  · subst hs₂
    refine WF_replace_step s oid o _ _ h hfind hid hstatus ?_ ?_ ?_
    · rfl
    · rfl
    · intro c
      rw [← ind_eq_nonterminal s o v now c h hmem hv hterm]
      rw [getWorkload_ignores_orders]
  · subst hs₂
    refine WF_replace_step s oid o _ _ h hfind hid hstatus ?_ ?_ ?_
    · rfl
    · rfl
    · intro c
      rw [hco, hnone]
      simp only [getWorkload_ignores_orders]
      simp
  · subst hs₂
    refine WF_replace_step s oid o _ _ h hfind hid hstatus ?_ ?_ ?_
    · rfl
    · rfl
    · intro c
      have hact : statusActive o.status = true :=
        statusActive_of_terminal_source h hmem hv hterm hsome
      have hinact : statusActive (serializerUpdate o v now).status = false := by
        rw [hso]
        rcases hterm with hterm | hterm <;> (subst hterm; rfl)
      by_cases hc : c = c₀
      · subst hc
        rw [getWorkload_update_self]
        rw [getWorkload_ignores_orders]
        rw [hsome, hco, hsome, hinact]
        have hpos : 1 ≤ countActive s c :=
          countP_pos_of_mem hmem (by rw [hsome, hact]; simp)
        have hweq := h.2.2.2 c
        rw [hact]
        simp only [beq_self_eq_true, Bool.and_true, Bool.and_false, Bool.false_eq_true,
          if_false]
        norm_num
        omega
      · rw [getWorkload_update_other _ _ _ _ hc]
        rw [getWorkload_ignores_orders]
        rw [hsome, hco, hsome]
        have hcc : c₀ ≠ c := fun hh => hc hh.symm
        have hbe : ((some c₀ == some c) = false) := by simp [hcc]
        rw [hbe]
        simp

theorem status_assigned_of_courier {s : State} {o : Order} (h : WF s)
    (hmem : o ∈ s.orders) (hst : o.status = .CREATED ∨ o.status = .ASSIGNED)
    {w : Nat} (hcur : o.assigned_courier = some w) : o.status = .ASSIGNED := by
  rcases hst with h1 | h1
  · exfalso
    have := h.2.2.1 o hmem h1
    rw [this] at hcur
    exact Option.noConfusion hcur
  · exact h1

theorem WF_assignCourier (s : State) (oid cid now : Nat) (s₂ : State)
    (h : WF s) (hok : assignCourier s oid cid now = .ok s₂) : WF s₂ := by
  obtain ⟨o, hfind, hst, hrole, hcase⟩ := assignCourier_ok_explicit hok
  have hmem := findOrder_mem hfind
  have hidm := findOrder_id hfind
  have hid : ({ o with assigned_courier := some cid, status := .ASSIGNED, assigned_at := some now } : Order).id = oid := hidm
  have hstatus : ({ o with assigned_courier := some cid, status := .ASSIGNED, assigned_at := some now } : Order).status ≠ .CREATED := by simp
  rcases hcase with ⟨hcur, hs₂⟩ | ⟨hcur, hs₂⟩ | ⟨old, hcur, holdcid, hs₂⟩
  · -- same courier: pure refresh
    subst hs₂
    have hstA : o.status = .ASSIGNED := status_assigned_of_courier h hmem hst hcur
    refine WF_replace_step s oid o _ _ h hfind hid hstatus ?_ ?_ ?_
    · rfl
    · rfl
    · intro c
      simp only []
      rw [hcur, hstA]
      have e := (getWorkload_ignores_orders
          { s with courierRows := getOrCreateRow s.courierRows cid }
          (replaceOrder s.orders oid { o with assigned_courier := some cid, status := .ASSIGNED, assigned_at := some now }) c).trans
        (getWorkload_getOrCreateRow s cid c)
      rw [e]
  · -- previously unassigned
    subst hs₂
    refine WF_replace_step s oid o _ _ h hfind hid hstatus ?_ ?_ ?_
    · rfl
    · rfl
    · intro c
      simp only []
      rw [hcur]
      have e := (getWorkload_ignores_orders
          { s with courierRows := getOrCreateRow s.courierRows cid }
          (replaceOrder s.orders oid { o with assigned_courier := some cid, status := .ASSIGNED, assigned_at := some now }) c).trans
        (getWorkload_getOrCreateRow s cid c)
      by_cases hc : c = cid
      · subst hc
        rw [getWorkload_update_self, e]
        simp [statusActive]
      · rw [getWorkload_update_other _ _ _ _ hc, e]
        have hcc : cid ≠ c := fun hh => hc hh.symm
        simp [hcc]
  · -- reassignment away from a different courier
    subst hs₂
    have hstA : o.status = .ASSIGNED := status_assigned_of_courier h hmem hst hcur
    have hact : statusActive o.status = true := by rw [hstA]; rfl
    have hpos : 1 ≤ countActive s old :=
      countP_pos_of_mem hmem (by rw [hcur, hact]; simp)
    have hweq := h.2.2.2 old
    refine WF_replace_step s oid o _ _ h hfind hid hstatus ?_ ?_ ?_
    · rfl
    · rfl
    · intro c
      simp only []
      rw [hcur, hstA]
      have e := getWorkload_ignores_orders
          (updateCourierWorkload { s with courierRows := getOrCreateRow s.courierRows cid } old (-1))
          (replaceOrder s.orders oid { o with assigned_courier := some cid, status := .ASSIGNED, assigned_at := some now }) c
      by_cases hc : c = cid
      · subst hc
        rw [getWorkload_update_self, e]
        rw [getWorkload_update_other _ _ _ _ (fun hh => holdcid hh.symm)]
        rw [getWorkload_getOrCreateRow]
        simp [statusActive, holdcid]
      · rw [getWorkload_update_other _ _ _ _ hc, e]
        by_cases hco : c = old
        · subst hco
          rw [getWorkload_update_self, getWorkload_getOrCreateRow]
          have hcc : cid ≠ c := fun hh => hc hh.symm
          have hweqc := h.2.2.2 c
          simp [statusActive, hcc]
          omega
        · rw [getWorkload_update_other _ _ _ _ hco, getWorkload_getOrCreateRow]
          have hcc : cid ≠ c := fun hh => hc hh.symm
          have hoc : old ≠ c := fun hh => hco hh.symm
          simp [statusActive, hcc, hoc]

theorem WF_acceptOrder (s : State) (oid cid now : Nat) (s₂ : State)
    (h : WF s) (hok : acceptOrder s oid cid now = .ok s₂) : WF s₂ := by
  obtain ⟨o, hfind, hst, hrole, hs₂⟩ := acceptOrder_ok_explicit hok
  have hmem := findOrder_mem hfind
  have hidm := findOrder_id hfind
  have hcur : o.assigned_courier = none := h.2.2.1 o hmem hst
  have hid : ({ o with assigned_courier := some cid, status := .ASSIGNED, assigned_at := some now } : Order).id = oid := hidm
  have hstatus : ({ o with assigned_courier := some cid, status := .ASSIGNED, assigned_at := some now } : Order).status ≠ .CREATED := by simp
  subst hs₂
  refine WF_replace_step s oid o _ _ h hfind hid hstatus ?_ ?_ ?_
  · rfl
  · rfl
  · intro c
    simp only []
    rw [hcur]
    have e := (getWorkload_ignores_orders
        { s with courierRows := getOrCreateRow s.courierRows cid }
        (replaceOrder s.orders oid { o with assigned_courier := some cid, status := .ASSIGNED, assigned_at := some now }) c).trans
      (getWorkload_getOrCreateRow s cid c)
    by_cases hc : c = cid
    · subst hc
      rw [getWorkload_update_self, e]
      simp [statusActive]
    · rw [getWorkload_update_other _ _ _ _ hc, e]
      have hcc : cid ≠ c := fun hh => hc hh.symm
      simp [hcc]

theorem WF_reassignCourier (s : State) (oid cid now : Nat) (s₂ : State)
    (h : WF s) (hok : reassignCourier s oid cid now = .ok s₂) : WF s₂ := by
  obtain ⟨o, old, hfind, hst, hcur, holdcid, hrole, hs₂⟩ := reassignCourier_ok_explicit hok
  have hmem := findOrder_mem hfind
  have hidm := findOrder_id hfind
  have hact : statusActive o.status = true := by
    rcases hst with h1 | h1 <;> (rw [h1]; rfl)
  have hpos : 1 ≤ countActive s old :=
    countP_pos_of_mem hmem (by rw [hcur, hact]; simp)
  have hweq := h.2.2.2 old
  have hid : (if o.status = OrderStatus.PICKED_UP then
      { o with assigned_courier := some cid, assigned_at := some now, status := .ASSIGNED, picked_up_at := none }
    else { o with assigned_courier := some cid, assigned_at := some now }).id = oid := by
    by_cases hpu : o.status = OrderStatus.PICKED_UP
    · rw [if_pos hpu]
      exact hidm
    · rw [if_neg hpu]
      exact hidm
  have hstatus : (if o.status = OrderStatus.PICKED_UP then
      { o with assigned_courier := some cid, assigned_at := some now, status := .ASSIGNED, picked_up_at := none }
    else { o with assigned_courier := some cid, assigned_at := some now }).status ≠ .CREATED := by
    by_cases hpu : o.status = OrderStatus.PICKED_UP
    · rw [if_pos hpu]
      simp
    · rw [if_neg hpu]
      rcases hst with h1 | h1
      · simp [h1]
      · exact absurd h1 hpu
  have hocour : (if o.status = OrderStatus.PICKED_UP then
      { o with assigned_courier := some cid, assigned_at := some now, status := .ASSIGNED, picked_up_at := none }
    else { o with assigned_courier := some cid, assigned_at := some now }).assigned_courier = some cid := by
    by_cases hpu : o.status = OrderStatus.PICKED_UP
    · rw [if_pos hpu]
    · rw [if_neg hpu]
  have hoact : statusActive (if o.status = OrderStatus.PICKED_UP then
      { o with assigned_courier := some cid, assigned_at := some now, status := .ASSIGNED, picked_up_at := none }
    else { o with assigned_courier := some cid, assigned_at := some now }).status = true := by
    by_cases hpu : o.status = OrderStatus.PICKED_UP
    · rw [if_pos hpu]
      rfl
    · rw [if_neg hpu]
      rcases hst with h1 | h1
      · simp only []
        rw [h1]
        rfl
      · exact absurd h1 hpu
  subst hs₂
  refine WF_replace_step s oid o _ _ h hfind hid hstatus ?_ ?_ ?_
  · rfl
  · rfl
  · intro c
    rw [hcur, hocour, hoact, hact]
    have e := getWorkload_ignores_orders
        (updateCourierWorkload (updateCourierWorkload { s with courierRows := getOrCreateRow s.courierRows cid } old (-1)) cid 1)
        (replaceOrder s.orders oid (if o.status = OrderStatus.PICKED_UP then
          { o with assigned_courier := some cid, assigned_at := some now, status := .ASSIGNED, picked_up_at := none }
        else { o with assigned_courier := some cid, assigned_at := some now })) c
    rw [e]
    by_cases hc : c = cid
    · subst hc
      rw [getWorkload_update_self]
      rw [getWorkload_update_other _ _ _ _ (fun hh => holdcid hh.symm)]
      rw [getWorkload_getOrCreateRow]
      simp [holdcid]
    · rw [getWorkload_update_other _ _ _ _ hc]
      have hcc : cid ≠ c := fun hh => hc hh.symm
      by_cases hco : c = old
      · subst hco
        rw [getWorkload_update_self, getWorkload_getOrCreateRow]
        have hweqc := h.2.2.2 c
        simp [hcc]
        omega
      · rw [getWorkload_update_other _ _ _ _ hco, getWorkload_getOrCreateRow]
        have hoc : old ≠ c := fun hh => hco hh.symm
        simp [hcc, hoc]

theorem WF_create_general (s : State) (o : Order) (now : Nat) (h : WF s)
    (hido : o.id = s.nextOrderId) (hsto : o.status = .CREATED)
    (hco : o.assigned_courier = none) :
    WF { (tryAutoAssignment s o now).2 with
         orders := (tryAutoAssignment s o now).2.orders ++ [(tryAutoAssignment s o now).1],
         nextOrderId := s.nextOrderId + 1 } := by
  rcases tryAutoAssignment_cases s o now with ⟨hsel, heq⟩ | ⟨r, hsel, heq⟩
  · rw [heq]
    simp only []
    refine ⟨?_, ?_, ?_, ?_⟩
    · exact nodup_ids_append s.orders o s.nextOrderId h.1 h.2.1 hido
    · intro y hy
      show y.id < s.nextOrderId + 1
      rcases List.mem_append.mp hy with h1 | h1
      · have := h.2.1 y h1
        omega
      · simp only [List.mem_singleton] at h1
        subst h1
        omega
    · intro y hy hst
      rcases List.mem_append.mp hy with h1 | h1
      · exact h.2.2.1 y h1 hst
      · simp only [List.mem_singleton] at h1
        subst h1
        exact hco
    · intro c
      unfold countActive
      simp only []
      rw [List.countP_append]
      have hz : List.countP (fun x => x.assigned_courier == some c && statusActive x.status) [o] = 0 := by
        simp [List.countP_cons, hco]
      rw [hz]
      show getWorkload s c = _
      have hbase := h.2.2.2 c
      unfold countActive at hbase
      omega
  · rw [heq]
    simp only []
    have hupd := updateCourierWorkload_orders s r.courier 1
    refine ⟨?_, ?_, ?_, ?_⟩
    · rw [hupd]
      exact nodup_ids_append s.orders _ s.nextOrderId h.1 h.2.1 hido
    · intro y hy
      show y.id < s.nextOrderId + 1
      rw [hupd] at hy
      rcases List.mem_append.mp hy with h1 | h1
      · have := h.2.1 y h1
        omega
      · simp only [List.mem_singleton] at h1
        subst h1
        show o.id < s.nextOrderId + 1
        omega
    · intro y hy hst
      rw [hupd] at hy
      rcases List.mem_append.mp hy with h1 | h1
      · exact h.2.2.1 y h1 hst
      · simp only [List.mem_singleton] at h1
        subst h1
        simp at hst
    · intro c
      unfold countActive
      simp only []
      rw [hupd, List.countP_append]
      have hbase := h.2.2.2 c
      unfold countActive at hbase
      by_cases hc : c = r.courier
      · have hone : List.countP (fun x => x.assigned_courier == some c && statusActive x.status)
            [{ o with assigned_courier := some r.courier, status := .ASSIGNED, assigned_at := some now }] = 1 := by
          simp [List.countP_cons, statusActive, hc]
        rw [hone]
        show getWorkload (updateCourierWorkload s r.courier 1) c = _
        rw [hc, getWorkload_update_self s r.courier 1]
        rw [hc] at hbase
        omega
      · have hzero : List.countP (fun x => x.assigned_courier == some c && statusActive x.status)
            [{ o with assigned_courier := some r.courier, status := .ASSIGNED, assigned_at := some now }] = 0 := by
          have hrc : r.courier ≠ c := fun hh => hc hh.symm
          simp [List.countP_cons, hrc]
        rw [hzero]
        show getWorkload (updateCourierWorkload s r.courier 1) c = _
        rw [getWorkload_update_other s r.courier c 1 hc]
        omega

theorem WF_createOrder (s : State) (customer : Nat) (pickup delivery : String)
    (distance now : Nat) (s₂ : State) (h : WF s)
    (hok : createOrder s customer pickup delivery distance now = .ok s₂) : WF s₂ := by
  obtain ⟨cfg, hcfg, hs₂⟩ := createOrder_ok_explicit hok
  subst hs₂
  exact WF_create_general s _ now h rfl rfl rfl

theorem WF_updateAvailability (s : State) (cid : Nat) (avail : Bool) (s₂ : State)
    (h : WF s) (hok : updateAvailability s cid avail = .ok s₂) : WF s₂ := by
  have hs₂ := updateAvailability_ok_explicit hok
  subst hs₂
  refine ⟨h.1, h.2.1, h.2.2.1, ?_⟩
  intro c
  rw [getWorkload_avail_rows]
  exact h.2.2.2 c

theorem WF_pricingPerformCreate (s : State) (b r : Nat) (h : WF s) :
    WF (pricingPerformCreate s b r) :=
  ⟨h.1, h.2.1, h.2.2.1, fun c => h.2.2.2 c⟩

theorem WF_pricingActivate (s : State) (cid : Nat) (s₂ : State) (h : WF s)
    (hok : pricingActivate s cid = .ok s₂) : WF s₂ := by
  unfold pricingActivate at hok
  split at hok
  · injection hok with hok
    subst hok
    exact ⟨h.1, h.2.1, h.2.2.1, fun c => h.2.2.2 c⟩
  · exact Except.noConfusion hok

theorem WF_applyOp (s : State) (op : Op) (h : WF s) : WF (applyOp s op) := by
  cases op with
  | createOp customer pickup delivery distance now =>
      show WF (orKeep s (createOrder s customer pickup delivery distance now))
      cases hres : createOrder s customer pickup delivery distance now with
      | error e => exact h
      | ok s₂ => exact WF_createOrder s customer pickup delivery distance now s₂ h hres
  | statusOp oid v now =>
      show WF (orKeep s (updateStatus s oid v now))
      cases hres : updateStatus s oid v now with
      | error e => exact h
      | ok s₂ => exact WF_updateStatus s oid v now s₂ h hres
  | assignOp oid cid now =>
      show WF (orKeep s (assignCourier s oid cid now))
      cases hres : assignCourier s oid cid now with
      | error e => exact h
      | ok s₂ => exact WF_assignCourier s oid cid now s₂ h hres
  | reassignOp oid cid now =>
      show WF (orKeep s (reassignCourier s oid cid now))
      cases hres : reassignCourier s oid cid now with
      | error e => exact h
      | ok s₂ => exact WF_reassignCourier s oid cid now s₂ h hres
  | acceptOp oid cid now =>
      show WF (orKeep s (acceptOrder s oid cid now))
      cases hres : acceptOrder s oid cid now with
      | error e => exact h
      | ok s₂ => exact WF_acceptOrder s oid cid now s₂ h hres
  | availOp cid avail =>
      show WF (orKeep s (updateAvailability s cid avail))
      cases hres : updateAvailability s cid avail with
      | error e => exact h
      | ok s₂ => exact WF_updateAvailability s cid avail s₂ h hres
  | pricingCreateOp b r =>
      exact WF_pricingPerformCreate s b r h
  | pricingActivateOp cid =>
      show WF (orKeep s (pricingActivate s cid))
      cases hres : pricingActivate s cid with
      | error e => exact h
      | ok s₂ => exact WF_pricingActivate s cid s₂ h hres

theorem WF_applyOps (s : State) (ops : List Op) (h : WF s) :
    WF (applyOps s ops) := by
  induction ops generalizing s with
  | nil => exact h
  | cons op rest ih => exact ih (applyOp s op) (WF_applyOp s op h)

theorem WF_initState (role : Nat → Role) : WF (initState role) := by
  refine ⟨List.nodup_nil, ?_, ?_, ?_⟩
  · intro o ho
    exact absurd ho (List.not_mem_nil o)
  · intro o ho
    exact absurd ho (List.not_mem_nil o)
  · intro c
    rfl

/-- C2: after every sequence of operations against an initially empty
store, every courier's `current_orders_count` equals the number of
orders assigned to that courier whose status is in
{ASSIGNED, PICKED_UP, IN_TRANSIT}. -/
theorem claim_workload_conservation (role : Nat → Role) (ops : List Op) (c : Nat) :
    getWorkload (applyOps (initState role) ops) c =
      countActive (applyOps (initState role) ops) c :=
  (WF_applyOps (initState role) ops (WF_initState role)).2.2.2 c

theorem needsCourier_source (st v : OrderStatus) (hv : v ∈ validTransitions st)
    (hna : v ≠ OrderStatus.ASSIGNED) (hnc : needsCourier v = true) :
    needsCourier st = true := by
  revert hv hna hnc
  cases st <;> cases v <;> decide

theorem CNN_updateStatus (s : State) (oid : Nat) (v : OrderStatus) (now : Nat)
    (s₂ : State) (h : CourierNonNull s) (hv : v ≠ OrderStatus.ASSIGNED)
    (hok : updateStatus s oid v now = .ok s₂) : CourierNonNull s₂ := by
  obtain ⟨o, hfind, hvt, hcase⟩ := updateStatus_ok_explicit hok
  have hmem := findOrder_mem hfind
  have hrep : ∀ y ∈ replaceOrder s.orders oid (serializerUpdate o v now),
      needsCourier y.status = true → y.assigned_courier ≠ none := by
    intro y hy hst
    rcases mem_replaceOrder hy with h1 | h1
    · subst h1
      rw [serializerUpdate_status] at hst
      rw [serializerUpdate_courier]
      exact h o hmem (needsCourier_source o.status v hvt hv hst)
    · exact h y h1 hst
  rcases hcase with ⟨_, hs₂⟩ | ⟨_, _, hs₂⟩ | ⟨c, _, _, hs₂⟩ <;> subst hs₂
  · exact hrep
  · exact hrep
  · intro y hy hst
    rw [updateCourierWorkload_orders] at hy
    exact hrep y hy hst

theorem CNN_assignCourier (s : State) (oid cid now : Nat) (s₂ : State)
    (h : CourierNonNull s) (hok : assignCourier s oid cid now = .ok s₂) :
    CourierNonNull s₂ := by
  obtain ⟨o, hfind, hst, hrole, hcase⟩ := assignCourier_ok_explicit hok
  have hrep : ∀ y ∈ replaceOrder s.orders oid
        { o with assigned_courier := some cid, status := OrderStatus.ASSIGNED,
                 assigned_at := some now },
      needsCourier y.status = true → y.assigned_courier ≠ none := by
    intro y hy hst'
    rcases mem_replaceOrder hy with h1 | h1
    · subst h1
      simp
    · exact h y h1 hst'
  rcases hcase with ⟨_, hs₂⟩ | ⟨_, hs₂⟩ | ⟨old, _, _, hs₂⟩ <;> subst hs₂
  · exact hrep
  · intro y hy hst'
    rw [updateCourierWorkload_orders] at hy
    exact hrep y hy hst'
  · intro y hy hst'
    rw [updateCourierWorkload_orders] at hy
    exact hrep y hy hst'

theorem CNN_acceptOrder (s : State) (oid cid now : Nat) (s₂ : State)
    (h : CourierNonNull s) (hok : acceptOrder s oid cid now = .ok s₂) :
    CourierNonNull s₂ := by
  obtain ⟨o, hfind, hst, hrole, hs₂⟩ := acceptOrder_ok_explicit hok
  subst hs₂
  intro y hy hst'
  rw [updateCourierWorkload_orders] at hy
  rcases mem_replaceOrder hy with h1 | h1
  · subst h1
    simp
  · exact h y h1 hst'

theorem CNN_reassignCourier (s : State) (oid cid now : Nat) (s₂ : State)
    (h : CourierNonNull s) (hok : reassignCourier s oid cid now = .ok s₂) :
    CourierNonNull s₂ := by
  obtain ⟨o, old, hfind, hst, hcur, holdcid, hrole, hs₂⟩ := reassignCourier_ok_explicit hok
  subst hs₂
  intro y hy hst'
  rcases mem_replaceOrder hy with h1 | h1
  · subst h1
    by_cases hpu : o.status = OrderStatus.PICKED_UP
    · rw [if_pos hpu]
      simp
    · rw [if_neg hpu]
      simp
  · exact h y h1 hst'

theorem CNN_create_general (s : State) (o : Order) (now : Nat)
    (h : CourierNonNull s) (hsto : o.status = OrderStatus.CREATED) :
    CourierNonNull { (tryAutoAssignment s o now).2 with
      orders := (tryAutoAssignment s o now).2.orders ++ [(tryAutoAssignment s o now).1],
      nextOrderId := s.nextOrderId + 1 } := by
  rcases tryAutoAssignment_cases s o now with ⟨hsel, heq⟩ | ⟨r, hsel, heq⟩
  · rw [heq]
    intro y hy hst
    rcases List.mem_append.mp hy with h1 | h1
    · exact h y h1 hst
    · simp only [List.mem_singleton] at h1
      subst h1
      replace hst : needsCourier y.status = true := hst
      rw [hsto] at hst
      simp [needsCourier] at hst
  · rw [heq]
    intro y hy hst
    rcases List.mem_append.mp hy with h1 | h1
    · rw [updateCourierWorkload_orders] at h1
      exact h y h1 hst
    · simp only [List.mem_singleton] at h1
      subst h1
      simp

theorem CNN_createOrder (s : State) (customer : Nat) (pickup delivery : String)
    (distance now : Nat) (s₂ : State) (h : CourierNonNull s)
    (hok : createOrder s customer pickup delivery distance now = .ok s₂) :
    CourierNonNull s₂ := by
  obtain ⟨cfg, hcfg, hs₂⟩ := createOrder_ok_explicit hok
  subst hs₂
  exact CNN_create_general s _ now h rfl

theorem CNN_updateAvailability (s : State) (cid : Nat) (avail : Bool) (s₂ : State)
    (h : CourierNonNull s) (hok : updateAvailability s cid avail = .ok s₂) :
    CourierNonNull s₂ := by
  have hs₂ := updateAvailability_ok_explicit hok
  subst hs₂
  exact h

theorem CNN_pricingActivate (s : State) (cid : Nat) (s₂ : State)
    (h : CourierNonNull s) (hok : pricingActivate s cid = .ok s₂) :
    CourierNonNull s₂ := by
  obtain ⟨horders, _, _⟩ := pricingActivate_ok_explicit hok
  intro y hy hst
  rw [horders] at hy
  exact h y hy hst

theorem CNN_applyOp (s : State) (op : Op) (h : CourierNonNull s)
    (hop : op.bareStatusToAssigned = false) : CourierNonNull (applyOp s op) := by
  cases op with
  | createOp customer pickup delivery distance now =>
      show CourierNonNull (orKeep s (createOrder s customer pickup delivery distance now))
      cases hres : createOrder s customer pickup delivery distance now with
      | error e => exact h
      | ok s₂ => exact CNN_createOrder s customer pickup delivery distance now s₂ h hres
  | statusOp oid v now =>
      show CourierNonNull (orKeep s (updateStatus s oid v now))
      have hv : v ≠ OrderStatus.ASSIGNED := by
        intro hvv
        subst hvv
        simp [Op.bareStatusToAssigned] at hop
      cases hres : updateStatus s oid v now with
      | error e => exact h
      | ok s₂ => exact CNN_updateStatus s oid v now s₂ h hv hres
  | assignOp oid cid now =>
      show CourierNonNull (orKeep s (assignCourier s oid cid now))
      cases hres : assignCourier s oid cid now with
      | error e => exact h
      | ok s₂ => exact CNN_assignCourier s oid cid now s₂ h hres
  | reassignOp oid cid now =>
      show CourierNonNull (orKeep s (reassignCourier s oid cid now))
      cases hres : reassignCourier s oid cid now with
      | error e => exact h
      | ok s₂ => exact CNN_reassignCourier s oid cid now s₂ h hres
  | acceptOp oid cid now =>
      show CourierNonNull (orKeep s (acceptOrder s oid cid now))
      cases hres : acceptOrder s oid cid now with
      | error e => exact h
      | ok s₂ => exact CNN_acceptOrder s oid cid now s₂ h hres
  | availOp cid avail =>
      show CourierNonNull (orKeep s (updateAvailability s cid avail))
      cases hres : updateAvailability s cid avail with
      | error e => exact h
      | ok s₂ => exact CNN_updateAvailability s cid avail s₂ h hres
  | pricingCreateOp b r =>
      exact h
  | pricingActivateOp cid =>
      show CourierNonNull (orKeep s (pricingActivate s cid))
      cases hres : pricingActivate s cid with
      | error e => exact h
      | ok s₂ => exact CNN_pricingActivate s cid s₂ h hres

theorem CNN_applyOps (s : State) (ops : List Op) (h : CourierNonNull s)
    (hops : ∀ op ∈ ops, op.bareStatusToAssigned = false) :
    CourierNonNull (applyOps s ops) := by
  induction ops generalizing s with
  | nil => exact h
  | cons op rest ih =>
      exact ih (applyOp s op)
        (CNN_applyOp s op h (hops op (List.mem_cons_self op rest)))
        (fun op' hop' => hops op' (List.mem_cons_of_mem op hop'))

theorem CNN_initState (role : Nat → Role) : CourierNonNull (initState role) :=
  fun o ho _ => absurd ho (List.not_mem_nil o)

/-- C8 (counterexample to the claim as stated): a bare status PATCH of a
CREATED order to ASSIGNED succeeds and produces a reachable order in
status ASSIGNED with `assigned_courier` null. -/
theorem claim_courier_nonnull_counterexample :
    ((applyOps (initState exRole)
        [Op.pricingCreateOp 5000 2000, Op.createOp 0 "A st" "B st" 500 10,
         Op.statusOp 0 OrderStatus.ASSIGNED 15]).orders.map
      (fun o => (o.status, o.assigned_courier, needsCourier o.status))) =
    [(OrderStatus.ASSIGNED, none, true)] := by
  rfl

/-- C8 (amended): provided no operation is a bare status PATCH to
ASSIGNED, every reachable order whose status is ASSIGNED, PICKED_UP,
IN_TRANSIT or DELIVERED has a non-null assigned courier. -/
theorem claim_courier_nonnull_amended (role : Nat → Role) (ops : List Op)
    (hops : ∀ op ∈ ops, op.bareStatusToAssigned = false)
    (o : Order) (ho : o ∈ (applyOps (initState role) ops).orders)
    (hst : needsCourier o.status = true) : o.assigned_courier ≠ none :=
  CNN_applyOps (initState role) ops (CNN_initState role) hops o ho hst

/-- Witness for the amended C8 theorem at a concrete run: config created,
courier 1 made available, an order created and auto-assigned to courier 1;
the resulting ASSIGNED order has a non-null courier. -/
theorem claim_courier_nonnull_amended_witness :
    (∀ op ∈ [Op.pricingCreateOp 5000 2000, Op.availOp 1 true,
             Op.createOp 0 "A st" "B st" 500 10],
       op.bareStatusToAssigned = false) ∧
    exOrder ∈ (applyOps (initState exRole)
        [Op.pricingCreateOp 5000 2000, Op.availOp 1 true,
         Op.createOp 0 "A st" "B st" 500 10]).orders ∧
    needsCourier exOrder.status = true ∧ exOrder.assigned_courier ≠ none :=
  ⟨by decide, by decide, rfl,
   claim_courier_nonnull_amended exRole
     [Op.pricingCreateOp 5000 2000, Op.availOp 1 true,
      Op.createOp 0 "A st" "B st" 500 10]
     (by decide) exOrder (by decide) rfl⟩
end Arba
